import Mathlib

/-!
A shallow embedding of the pypolicy language runtime (src/src/pypolicy):
the value model and virtual machine (vm.py), the AST-to-bytecode compiler
(codegen.py) and the bytecode serializer (serde.py), together with theorems
checking the natural-language specification's claims against this embedding.

Modelling conventions:
* Python integers are Lean Int; Python byte strings are List Nat (one Nat
  per byte); Python str is Lean String.
* Python exceptions are modelled with Except String; the message text keeps
  the gist of the Python message but not its exact formatting.
* Recursion that is unbounded in Python (the VM loop, nested calls, the
  bytecode decoder, the tree-walking compiler) takes an explicit fuel
  argument; fuel exhaustion is an error distinct from any source behaviour.
* Host (CPython) facilities are modelled as follows: host callables are
  referenced by an index into an environment passed to the VM; DEFLATE
  compression is an explicit codec parameter (zlib's contract is that
  decompress inverts compress); CRC32 is implemented bit for bit;
  metadata JSON parsing is a passthrough (no claim concerns metadata);
  host attribute reflection in GETATTR is modelled as always failing soft.
* Python's mutable iterators are modelled as immutable cursors: stepping
  pushes a cursor holding the remaining items.  The compiler's loop pattern
  is the only consumer, and it threads the single cursor linearly, so this
  is observationally equivalent for compiled programs.
* List and Dict mutation through aliases (reference identity) is not
  modelled: SET_INDEX applies its update to the popped container value,
  mirroring the source lines, but the update is not observable through
  other references.  No claim below reads a container after SET_INDEX.
-/

namespace PyPolicy

/-- The opcode enumeration of vm.py (class Opcode). -/
inductive Opc where
  | BIN_ADD | BIN_SUB | BIN_MUL | BIN_DIV | BIN_IN | BIN_MOD
  | EQ | NEQ | PRINT | PUSH | STORE | CALL | CALL_FN | RETURN
  | GT | LT | GTE | LTE | NOT | GETATTR | GETITEM | PUSH_GLOBAL
  | JUMP | JUMP_IF_TRUE | JUMP_IF_FALSE
  | MAKE_LIST | MAKE_DICT | POP | ITER_INIT | ITER_NEXT
  | PUSH_LOCAL | STORE_LOCAL | INDEX | SET_INDEX | SET_ATTR
deriving DecidableEq

mutual

/-- The iObject class hierarchy of vm.py.  Each constructor is one concrete
class; `iIntegerV` carries an arbitrary host payload because vm.py's BIN_ADD
and BIN_DIV wrap whatever the host operator returned in `iInteger`.
`iFunctionV` stores the arity as the Int payload of the source's iInteger
field; `iPyfunctionV` stores an index into the host-callable environment. -/
inductive Obj where
  | iNilV : Obj
  | iBoolV : Bool → Obj
  | iStringV : String → Obj
  | iIntegerV : Pyv → Obj
  | iListV : List Obj → Obj
  | iDictV : List (String × Obj) → Obj
  | iFunctionV : List (Opc × Obj) → Int → List String → Obj
  | iPyfunctionV : Nat → Int → Obj
  | iPyObjectV : Pyv → Obj
  | iBoundMethodV : Obj → Obj → Obj

/-- Host (Python-level) payloads, as returned by iObject.value(). -/
inductive Pyv where
  | pNone : Pyv
  | pInt : Int → Pyv
  | pBool : Bool → Pyv
  | pStr : String → Pyv
  | pFlt : Rat → Pyv
  | pObjList : List Obj → Pyv
  | pDictO : List (String × Obj) → Pyv
  | pCode : List (Opc × Obj) → Pyv
  | pIter : List Pyv → Pyv
  | pHostFun : Nat → Pyv
  | pPair : Obj → Obj → Pyv
  | pObj : Obj → Pyv

end

/-- One instruction: a pair of opcode and iObject argument. -/
abbrev Instr := Opc × Obj

/-- iObject.value() for every class (vm.py). -/
def value : Obj → Pyv
  | .iNilV => .pNone
  | .iBoolV b => .pBool b
  | .iStringV s => .pStr s
  | .iIntegerV p => p
  | .iListV xs => .pObjList xs
  | .iDictV m => .pDictO m
  | .iFunctionV c _ _ => .pCode c
  | .iPyfunctionV fid _ => .pHostFun fid
  | .iPyObjectV p => p
  | .iBoundMethodV f s => .pPair s f

/-- to_iobj of vm.py: lift a host value to an iObject.  The match order
mirrors the source: None, already-an-iObject, bool, int, str, fallback. -/
def toIobj : Pyv → Obj
  | .pNone => .iNilV
  | .pObj o => o
  | .pBool b => .iBoolV b
  | .pInt n => .iIntegerV (.pInt n)
  | .pStr s => .iStringV s
  | p => .iPyObjectV p

mutual

/-- Host equality (Python ==) on payloads, as invoked by iObject.__eq__ and
by the EQ/NEQ opcodes.  Numeric kinds compare cross-type by numeric value
(bool is an int in Python); iterators and distinct host callables compare
by identity, modelled as index equality for callables and as never-equal for
iterators.  Dict equality is modelled as insertion-ordered comparison;
Python's is order-insensitive (no claim compares dicts). -/
def pyvEq : Pyv → Pyv → Bool
  | .pNone, .pNone => true
  | .pInt a, .pInt b => a == b
  | .pInt a, .pBool b => a == (if b then (1 : Int) else 0)
  | .pBool a, .pInt b => (if a then (1 : Int) else 0) == b
  | .pBool a, .pBool b => a == b
  | .pInt a, .pFlt q => (a : Rat) == q
  | .pFlt q, .pInt a => q == (a : Rat)
  | .pBool a, .pFlt q => ((if a then (1 : Int) else 0 : Int) : Rat) == q
  | .pFlt q, .pBool a => q == ((if a then (1 : Int) else 0 : Int) : Rat)
  | .pFlt a, .pFlt b => a == b
  | .pStr a, .pStr b => a == b
  | .pObjList a, .pObjList b => objListEq a b
  | .pDictO a, .pDictO b => dictEq a b
  | .pCode a, .pCode b => codeValEq a b
  | .pPair a b, .pPair c d => objEq a c && objEq b d
  | .pHostFun a, .pHostFun b => a == b
  | .pObj a, .pObj b => objEq a b
  | _, _ => false
termination_by a b => sizeOf a + sizeOf b

/-- iObject.__eq__ of vm.py: compare the payloads. -/
def objEq : Obj → Obj → Bool
  | a, b => pyvEq (value a) (value b)
termination_by a b => sizeOf a + sizeOf b + 1
decreasing_by
  simp_wf
  have h1 : sizeOf (value a) ≤ sizeOf a := by cases a <;> simp [value] <;> omega
  have h2 : sizeOf (value b) ≤ sizeOf b := by cases b <;> simp [value] <;> omega
  omega

def objListEq : List Obj → List Obj → Bool
  | [], [] => true
  | a :: as, b :: bs => objEq a b && objListEq as bs
  | _, _ => false
termination_by a b => sizeOf a + sizeOf b

def dictEq : List (String × Obj) → List (String × Obj) → Bool
  | [], [] => true
  | (k, v) :: as, (k2, v2) :: bs => k == k2 && objEq v v2 && dictEq as bs
  | _, _ => false
termination_by a b => sizeOf a + sizeOf b

def codeValEq : List (Opc × Obj) → List (Opc × Obj) → Bool
  | [], [] => true
  | (o, a) :: as, (o2, a2) :: bs => o == o2 && objEq a a2 && codeValEq as bs
  | _, _ => false
termination_by a b => sizeOf a + sizeOf b

end

/-- Digit accumulation for parseInt. -/
def digitsAux : List Char → Nat → Option Nat
  | [], acc => some acc
  | c :: rest, acc =>
    if 48 ≤ c.toNat && c.toNat ≤ 57 then digitsAux rest (acc * 10 + (c.toNat - 48))
    else none

/-- Python int(str) on the strings that reach it here (an optional minus
sign and decimal digits; whitespace and plus-sign forms do not occur in
grammar-produced tokens). -/
def parseInt (s : String) : Option Int :=
  match s.data with
  | [] => none
  | c :: rest =>
    if c == '-' then
      match rest with
      | [] => none
      | _ => (digitsAux rest 0).map (fun n => -(n : Int))
    else (digitsAux (c :: rest) 0).map (fun n => (n : Int))

/-- Numeric view of a payload: Python treats bool as an int. -/
def pyNum : Pyv → Option Int
  | .pInt n => some n
  | .pBool b => some (if b then 1 else 0)
  | _ => none

/-- Rational view of a payload (covers the float results of BIN_DIV). -/
def pyNumQ : Pyv → Option Rat
  | .pInt n => some (n : Rat)
  | .pBool b => some (if b then 1 else 0)
  | .pFlt q => some q
  | _ => none

/-- Host + operator.  Numbers add, strings and lists concatenate, anything
else is a TypeError. -/
def pyAdd (a b : Pyv) : Except String Pyv :=
  match pyNum a, pyNum b with
  | some x, some y => .ok (.pInt (x + y))
  | _, _ =>
    match pyNumQ a, pyNumQ b with
    | some x, some y => .ok (.pFlt (x + y))
    | _, _ =>
      match a, b with
      | .pStr x, .pStr y => .ok (.pStr (x ++ y))
      | .pObjList x, .pObjList y => .ok (.pObjList (x ++ y))
      | _, _ => .error "TypeError: unsupported operand types for binary op"

/-- Host - operator. -/
def pySub (a b : Pyv) : Except String Pyv :=
  match pyNum a, pyNum b with
  | some x, some y => .ok (.pInt (x - y))
  | _, _ =>
    match pyNumQ a, pyNumQ b with
    | some x, some y => .ok (.pFlt (x - y))
    | _, _ => .error "TypeError: unsupported operand types for binary op"

/-- Host * operator.  Sequence repetition uses max 0 like Python. -/
def pyMul (a b : Pyv) : Except String Pyv :=
  match pyNum a, pyNum b with
  | some x, some y => .ok (.pInt (x * y))
  | _, _ =>
    match pyNumQ a, pyNumQ b with
    | some x, some y => .ok (.pFlt (x * y))
    | _, _ =>
      match a, b with
      | .pStr x, .pInt y => .ok (.pStr (String.join (List.replicate y.toNat x)))
      | .pInt x, .pStr y => .ok (.pStr (String.join (List.replicate x.toNat y)))
      | .pObjList x, .pInt y => .ok (.pObjList (List.flatten (List.replicate y.toNat x)))
      | .pInt x, .pObjList y => .ok (.pObjList (List.flatten (List.replicate x.toNat y)))
      | _, _ => .error "TypeError: unsupported operand types for binary op"

/-- Host / operator: Python 3 true division always yields a float
(modelled as an exact rational; IEEE rounding is not modelled). -/
def pyDiv (a b : Pyv) : Except String Pyv :=
  match pyNumQ a, pyNumQ b with
  | some x, some y =>
    if y = 0 then .error "ZeroDivisionError" else .ok (.pFlt (x / y))
  | _, _ => .error "TypeError: unsupported operand types for binary op"

/-- Host % operator: Python's result takes the sign of the divisor
(floor modulus, Int.fmod). -/
def pyMod (a b : Pyv) : Except String Pyv :=
  match pyNum a, pyNum b with
  | some x, some y =>
    if y = 0 then .error "ZeroDivisionError" else .ok (.pInt (Int.fmod x y))
  | _, _ => .error "TypeError: unsupported operand types for binary op"

/-- Host < comparison: numerics cross-kind, strings lexicographically,
anything else is a TypeError. -/
def pyLt (a b : Pyv) : Except String Bool :=
  match pyNumQ a, pyNumQ b with
  | some x, some y => .ok (decide (x < y))
  | _, _ =>
    match a, b with
    | .pStr x, .pStr y => .ok (decide (x < y))
    | _, _ => .error "TypeError: unsupported operand types for comparison"

/-- Host <= comparison. -/
def pyLe (a b : Pyv) : Except String Bool :=
  match pyNumQ a, pyNumQ b with
  | some x, some y => .ok (decide (x ≤ y))
  | _, _ =>
    match a, b with
    | .pStr x, .pStr y => .ok (decide (x < y) || (x == y))
    | _, _ => .error "TypeError: unsupported operand types for comparison"

/-- Host truthiness bool(): the payload's boolean projection.  An iObject
instance appearing as a payload is truthy (the class defines neither
__bool__ nor __len__). -/
def pyTruthy : Pyv → Bool
  | .pNone => false
  | .pBool b => b
  | .pInt n => n != 0
  | .pFlt q => q != 0
  | .pStr s => s != ""
  | .pObjList xs => !xs.isEmpty
  | .pDictO m => !m.isEmpty
  | .pCode c => !c.isEmpty
  | .pIter _ => true
  | .pHostFun _ => true
  | .pPair _ _ => true
  | .pObj _ => true

/-- Host str() of a payload, as used by MAKE_DICT key coercion.  Scalars
are rendered as Python renders them; container renderings are not
modelled (no claim inspects them). -/
def pyToString : Pyv → String
  | .pInt n => toString n
  | .pBool b => if b then "True" else "False"
  | .pNone => "None"
  | .pStr s => s
  | _ => "<object>"

/-- Python dict lookup d.get(k): first (unique) matching key. -/
def dictGet {α : Type} (m : List (String × α)) (k : String) : Option α :=
  (m.find? (fun kv => kv.1 == k)).map (fun kv => kv.2)

/-- Python dict store d[k] = v: overwrite in place, else append
(insertion order preserved). -/
def dictSet {α : Type} (m : List (String × α)) (k : String) (v : α) : List (String × α) :=
  if m.any (fun kv => kv.1 == k) then
    m.map (fun kv => if kv.1 == k then (k, v) else kv)
  else m ++ [(k, v)]

/-- Python list indexing xs[i] with negative-index wrapping; none is an
IndexError. -/
def pyListGet (xs : List Obj) (i : Int) : Option Obj :=
  if 0 ≤ i then xs.get? i.toNat
  else if -(xs.length : Int) ≤ i then xs.get? (xs.length + i).toNat
  else none

/-- The Interpreter's mutable state: operand stack (head is the top),
globals, activation frames (head is the topmost frame; Python appends and
pops at the end of its list), the method table keyed by class name, and
the values printed so far. -/
structure VMState where
  stack : List Obj
  globals : List (String × Obj)
  frames : List (List (String × Obj))
  methods : List (String × List (String × Obj))
  output : List Obj

/-- Interpreter.push. -/
def push (st : VMState) (v : Obj) : VMState :=
  { st with stack := v :: st.stack }

/-- Interpreter.pop (vm.py lines 278-281): total, yields iNil on an empty
stack instead of failing. -/
def popO (st : VMState) : Obj × VMState :=
  match st.stack with
  | [] => (.iNilV, st)
  | v :: rest => (v, { st with stack := rest })

/-- Pop n values, returned in pop order (top first). -/
def popN : Nat → VMState → List Obj × VMState
  | 0, st => ([], st)
  | n + 1, st =>
    let (v, st1) := popO st
    let (vs, st2) := popN n st1
    (v :: vs, st2)

/-- Class-name discriminator used to key the method table (Python keys it
by the class object; names stand in for class identity). -/
def clsOf : Obj → String
  | .iNilV => "iNil"
  | .iBoolV _ => "iBool"
  | .iStringV _ => "iString"
  | .iIntegerV _ => "iInteger"
  | .iListV _ => "iList"
  | .iDictV _ => "iDict"
  | .iFunctionV _ _ _ => "iFunction"
  | .iPyfunctionV _ _ => "iPyfunction"
  | .iPyObjectV _ => "iPyObject"
  | .iBoundMethodV _ _ => "iBoundMethod"

/-- Host type name of an unwrapped iPyObject payload (resolve_method
unwraps iPyObject and walks the payload's type hierarchy). -/
def hostCls : Pyv → String
  | .pInt _ => "int"
  | .pBool _ => "bool"
  | .pStr _ => "str"
  | .pFlt _ => "float"
  | .pNone => "NoneType"
  | .pIter _ => "list_iterator"
  | .pObjList _ => "list"
  | .pDictO _ => "dict"
  | .pCode _ => "list"
  | .pHostFun _ => "function"
  | .pPair _ _ => "tuple"
  | .pObj o => clsOf o

/-- Interpreter.resolve_method: unwrap iPyObject, then look the receiver's
class up in the method table.  The source walks the MRO; the repository
registers methods on exact classes only, so the walk is modelled as an
exact-class lookup. -/
def resolveMethod (st : VMState) (obj : Obj) (name : String) : Option Obj :=
  let key := match obj with
    | .iPyObjectV p => hostCls p
    | o => clsOf o
  (dictGet st.methods key).bind (fun tbl => dictGet tbl name)

/-- iter() of a payload: the host iterator protocol over the host value. -/
def pyIterOf : Pyv → Except String (List Pyv)
  | .pObjList xs => .ok (xs.map .pObj)
  | .pStr s => .ok (s.data.map (fun c => .pStr (String.singleton c)))
  | .pDictO m => .ok (m.map (fun kv => .pStr kv.1))
  | .pIter l => .ok l
  | _ => .error "TypeError: object is not iterable"

/-- Item of a host iterator viewed as a payload (for == in membership). -/
def itemVal : Pyv → Pyv
  | .pObj o => value o
  | p => p

/-- Substring test (Python sub in s over str). -/
def charsContain (sub : List Char) : List Char → Bool
  | [] => sub.isEmpty
  | c :: t => sub.isPrefixOf (c :: t) || charsContain sub t

/-- Host membership lhs in rhs; none models the exception the VM catches
(BIN_IN pushes False then). -/
def pyIn (lhs rhs : Pyv) : Option Bool :=
  match rhs with
  | .pObjList xs => some (xs.any (fun o => pyvEq (value o) lhs))
  | .pStr s =>
    match lhs with
    | .pStr sub => some (charsContain sub.data s.data)
    | _ => none
  | .pDictO m =>
    match lhs with
    | .pStr s => some (m.any (fun kv => kv.1 == s))
    | _ => some false
  | .pIter l => some (l.any (fun p => pyvEq (itemVal p) lhs))
  | _ => none

/-- Python string indexing s[i] with negative wrapping. -/
def pyStrGet (s : String) (i : Int) : Option Pyv :=
  let cs := s.data
  let gotten :=
    if 0 ≤ i then cs.get? i.toNat
    else if -(cs.length : Int) ≤ i then cs.get? (cs.length + i).toNat
    else none
  gotten.map (fun c => .pStr (String.singleton c))

/-- Host container indexing, used by the INDEX/GETITEM fallback branches;
none models the exception they catch. -/
def pyGetItem : Pyv → Pyv → Option Pyv
  | .pObjList xs, .pInt i => (pyListGet xs i).map .pObj
  | .pObjList xs, .pBool b => (pyListGet xs (if b then 1 else 0)).map .pObj
  | .pStr s, .pInt i => pyStrGet s i
  | .pStr s, .pBool b => pyStrGet s (if b then 1 else 0)
  | .pDictO m, .pStr s => (dictGet m s).map .pObj
  | _, _ => none

/-- One non-control-flow opcode of Interpreter.exec's dispatch (vm.py):
everything except RETURN, the jumps and CALL_FN, which the loop below
handles because they change the program counter or recurse. -/
def execSimple : Opc → Obj → VMState → Except String VMState
  | .PUSH, arg, st => .ok (push st arg)
  | .STORE, arg, st =>
    let (val, st1) := popO st
    match value arg with
    | .pStr name => .ok { st1 with globals := dictSet st1.globals name val }
    | _ => .error "store with non-string name (compiler never emits this)"
  | .PUSH_GLOBAL, arg, st =>
    (match value arg with
    | .pStr name => .ok (push st ((dictGet st.globals name).getD .iNilV))
    | _ => .ok (push st .iNilV))
  | .PUSH_LOCAL, arg, st =>
    (match value arg with
    | .pStr name =>
      match st.frames with
      | f :: _ =>
        match dictGet f name with
        | some v => .ok (push st v)
        | none => .ok (push st .iNilV)
      | [] => .ok (push st .iNilV)
    | _ => .ok (push st .iNilV))
  | .STORE_LOCAL, arg, st =>
    (match value arg with
    | .pStr name =>
      let (val, st1) := popO st
      match st1.frames with
      | [] => .ok { st1 with globals := dictSet st1.globals name val }
      | f :: rest => .ok { st1 with frames := dictSet f name val :: rest }
    | _ => .error "store_local with non-string name (compiler never emits this)")
  | .MAKE_DICT, arg, st =>
    (match value arg with
    | .pInt n =>
      -- pop n (key, value) pairs, reverse, rebuild as a host dict
      let rec popPairs : Nat → VMState → List (String × Obj) × VMState
        | 0, s => ([], s)
        | k + 1, s =>
          let (val, s1) := popO s
          let (key, s2) := popO s1
          let kStr := match key with
            | .iStringV ks => ks
            | other => pyToString (value other)
          let (ps, s3) := popPairs k s2
          ((kStr, val) :: ps, s3)
      let (pairs, st1) := popPairs n.toNat st
      let d := pairs.reverse.foldl (fun m kv => dictSet m kv.1 kv.2) []
      .ok (push st1 (.iDictV d))
    | _ => .error "TypeError: range arg must be an int")
  | .MAKE_LIST, arg, st =>
    (match value arg with
    | .pInt n =>
      let (items, st1) := popN n.toNat st
      .ok (push st1 (.iListV items.reverse))
    | _ => .error "TypeError: range arg must be an int")
  | .POP, _, st => .ok (popO st).2
  | .NOT, _, st =>
    let (val, st1) := popO st
    .ok (push st1 (.iBoolV (!pyTruthy (value val))))
  | .ITER_INIT, _, st => do
    let (iterable, st1) := popO st
    let items ← pyIterOf (value iterable)
    .ok (push st1 (.iPyObjectV (.pIter items)))
  | .ITER_NEXT, _, st =>
    let (itObj, st1) := popO st
    (match value itObj with
    | .pIter (x :: rest) =>
      .ok (push (push (push st1 (.iPyObjectV (.pIter rest))) (toIobj x)) (.iBoolV true))
    | .pIter [] =>
      .ok (push (push st1 (.iPyObjectV (.pIter []))) (.iBoolV false))
    | _ => .error "TypeError: not an iterator")
  | .BIN_ADD, _, st => do
    let (rhs, st1) := popO st
    let (lhs, st2) := popO st1
    -- vm.py line 382 adds rhs.value() + lhs.value() (right before left)
    -- and wraps the host result in iInteger whatever its type.
    let p ← pyAdd (value rhs) (value lhs)
    .ok (push st2 (.iIntegerV p))
  | .BIN_SUB, _, st => do
    let (rhs, st1) := popO st
    let (lhs, st2) := popO st1
    let p ← pySub (value lhs) (value rhs)
    .ok (push st2 (.iIntegerV p))
  | .BIN_MUL, _, st => do
    let (rhs, st1) := popO st
    let (lhs, st2) := popO st1
    let p ← pyMul (value lhs) (value rhs)
    .ok (push st2 (.iIntegerV p))
  | .BIN_DIV, _, st => do
    let (rhs, st1) := popO st
    let (lhs, st2) := popO st1
    let p ← pyDiv (value lhs) (value rhs)
    .ok (push st2 (.iIntegerV p))
  | .BIN_MOD, _, st => do
    let (rhs, st1) := popO st
    let (lhs, st2) := popO st1
    let p ← pyMod (value lhs) (value rhs)
    .ok (push st2 (.iIntegerV p))
  | .EQ, _, st =>
    let (rhs, st1) := popO st
    let (lhs, st2) := popO st1
    .ok (push st2 (.iBoolV (pyvEq (value rhs) (value lhs))))
  | .NEQ, _, st =>
    let (rhs, st1) := popO st
    let (lhs, st2) := popO st1
    .ok (push st2 (.iBoolV (!pyvEq (value rhs) (value lhs))))
  | .GT, _, st => do
    let (rhs, st1) := popO st
    let (lhs, st2) := popO st1
    let b ← pyLt (value rhs) (value lhs)
    .ok (push st2 (.iBoolV b))
  | .LT, _, st => do
    let (rhs, st1) := popO st
    let (lhs, st2) := popO st1
    let b ← pyLt (value lhs) (value rhs)
    .ok (push st2 (.iBoolV b))
  | .GTE, _, st => do
    let (rhs, st1) := popO st
    let (lhs, st2) := popO st1
    let b ← pyLe (value rhs) (value lhs)
    .ok (push st2 (.iBoolV b))
  | .LTE, _, st => do
    let (rhs, st1) := popO st
    let (lhs, st2) := popO st1
    let b ← pyLe (value lhs) (value rhs)
    .ok (push st2 (.iBoolV b))
  | .BIN_IN, _, st =>
    let (rhs, st1) := popO st
    let (lhs, st2) := popO st1
    .ok (push st2 (.iBoolV ((pyIn (value lhs) (value rhs)).getD false)))
  | .PRINT, _, st =>
    let (val, st1) := popO st
    .ok { st1 with output := st1.output ++ [val] }
  | .GETATTR, arg, st =>
    (match value arg with
    | .pStr name =>
      let (obj, st1) := popO st
      (match resolveMethod st1 obj name with
      | some m => .ok (push st1 (.iBoundMethodV m obj))
      -- host getattr reflection fallback: modelled as always failing,
      -- which the source recovers from by pushing iNil
      | none => .ok (push st1 .iNilV))
    | _ => .error "getattr with non-string name (compiler never emits this)")
  | .GETITEM, arg, st =>
    let (container, st1) := popO st
    let keyObj := match value arg with
      | .pStr name => (dictGet st1.globals name).getD .iNilV
      | _ => .iNilV
    (match container, keyObj with
    | .iListV xs, .iIntegerV p =>
      (match p with
      | .pInt i => .ok (push st1 ((pyListGet xs i).getD .iNilV))
      | .pBool b => .ok (push st1 ((pyListGet xs (if b then 1 else 0)).getD .iNilV))
      | _ => .ok (push st1 .iNilV))
    | _, _ =>
      (match pyGetItem (value container) (value keyObj) with
      | some r => .ok (push st1 (.iPyObjectV r))
      | none => .ok (push st1 .iNilV)))
  | .INDEX, _, st =>
    let (key, st1) := popO st
    let (container, st2) := popO st1
    (match container, key with
    | .iListV xs, .iIntegerV p =>
      (match p with
      | .pInt i => .ok (push st2 ((pyListGet xs i).getD .iNilV))
      | .pBool b => .ok (push st2 ((pyListGet xs (if b then 1 else 0)).getD .iNilV))
      | _ => .ok (push st2 .iNilV))
    | .iDictV m, .iStringV s => .ok (push st2 ((dictGet m s).getD .iNilV))
    | .iDictV _, _ =>
      -- vm.py line 552 evaluates str(kval, iNil()): calling str with a
      -- second, non-str argument raises TypeError unconditionally, and
      -- no handler catches it, so execution terminates here.
      .error "TypeError: str() argument 2 must be str"
    | _, _ =>
      (match pyGetItem (value container) (value key) with
      | some r => .ok (push st2 (toIobj r))
      | none => .ok (push st2 .iNilV)))
  | .SET_INDEX, _, st =>
    -- pops value, key, container; the source mutates the popped container
    -- in place (or silently swallows failures).  The mutation targets the
    -- popped reference and is not observable in this aliasing-free model;
    -- stack and control flow behave exactly as in the source.
    let (_, st1) := popO st
    let (_, st2) := popO st1
    let (_, st3) := popO st2
    .ok st3
  | .SET_ATTR, _, _ => .error "NotImplementedError"
  | .CALL, _, _ => .error "RuntimeError: Unhandled opcode"
  | _, _, _ => .error "handled by the run loop"

/-- Interpreter.exec of vm.py: the fetch-dispatch loop.  `host` is the
environment of host callables referenced by iPyfunction values; `fuel`
bounds the number of executed instructions (a model artifact: the source
loop is unbounded).  The loop exits, yielding iNil, exactly when
pc >= len(code); a negative pc keeps looping (Python indexes negatively,
modelled faithfully in the fetch). -/
def run (host : Nat → List Obj → Except String Obj) :
    Nat → List Instr → Int → VMState → Except String (Obj × VMState)
  | fuel, code, pc, st =>
    if pc < (code.length : Int) then
      match fuel with
      | 0 => .error "VM fuel exhausted (model artifact)"
      | fuel' + 1 =>
        let fetched : Except String Instr :=
          if 0 ≤ pc then
            match code.get? pc.toNat with
            | some ins => .ok ins
            | none => .error "IndexError: instruction fetch"
          else if -(code.length : Int) ≤ pc then
            match code.get? ((code.length : Int) + pc).toNat with
            | some ins => .ok ins
            | none => .error "IndexError: instruction fetch"
          else .error "IndexError: instruction fetch"
        match fetched with
        | .error e => .error e
        | .ok (op, arg) =>
          match op with
          | .RETURN =>
            let (v, st1) := popO st
            .ok (v, st1)
          | .JUMP =>
            (match value arg with
            | .pInt off => run host fuel' code (pc + off) st
            | _ => .error "TypeError: jump offset must be an int")
          | .JUMP_IF_TRUE =>
            let (cond, st1) := popO st
            if pyTruthy (value cond) then
              match value arg with
              | .pInt off => run host fuel' code (pc + off) st1
              | _ => .error "TypeError: jump offset must be an int"
            else run host fuel' code (pc + 1) st1
          | .JUMP_IF_FALSE =>
            let (cond, st1) := popO st
            if !pyTruthy (value cond) then
              match value arg with
              | .pInt off => run host fuel' code (pc + off) st1
              | _ => .error "TypeError: jump offset must be an int"
            else run host fuel' code (pc + 1) st1
          | .CALL_FN =>
            (match value arg with
            | .pInt nArg =>
              let (popped, st1) := popN nArg.toNat st
              let args0 := popped.reverse
              let (callee0, st2) := popO st1
              -- bound methods: prepend the receiver, bump n, unwrap
              let args := match callee0 with
                | .iBoundMethodV _ s => s :: args0
                | _ => args0
              let n : Int := match callee0 with
                | .iBoundMethodV _ _ => nArg + 1
                | _ => nArg
              let callee := match callee0 with
                | .iBoundMethodV f _ => f
                | c => c
              (match callee with
              | .iFunctionV fcode np ps =>
                if np ≠ n then .error "RuntimeError: arity mismatch"
                else do
                  let frame := (ps.zip args).foldl (fun m kv => dictSet m kv.1 kv.2) []
                  let (ret, st3) ← run host fuel' fcode 0
                    { st2 with frames := frame :: st2.frames }
                  let st4 := { st3 with frames := st3.frames.drop 1 }
                  run host fuel' code (pc + 1) (push st4 ret)
              | .iPyfunctionV fid np =>
                -- vm.py lines 455-458: the arity check is a strict
                -- equality; iPyfunction has no variadic flag
                if np ≠ n then .error "RuntimeError: arity mismatch"
                else do
                  let r ← host fid args
                  run host fuel' code (pc + 1) (push st2 r)
              | .iPyObjectV _ => .error "NotImplementedError"
              | _ =>
                -- no case of the source's match statement applies
                -- (e.g. iNil, iInteger, iString): execution continues
                -- silently with nothing pushed
                run host fuel' code (pc + 1) st2)
            | _ => .error "TypeError: range arg must be an int")
          | _ => do
            let st1 ← execSimple op arg st
            run host fuel' code (pc + 1) st1
    else .ok (.iNilV, st)

/-- A Lark parse-tree node: a terminal Token (with its type and text) or a
Tree (with its rule name and children).  Children may be absent (None). -/
inductive Node where
  | tok (ty : String) (txt : String)
  | tree (dat : String) (children : List (Option Node))

/-- The CodeGen state of codegen.py: the emitted instruction list and the
stack of local-variable name sets (head is the innermost scope; Python
appends and pops at the end of its list). -/
structure CG where
  code : List Instr
  localScopes : List (List String)

/-- CodeGen.emit: append an instruction, return its index. -/
def emit (cg : CG) (op : Opc) (arg : Obj) : Nat × CG :=
  (cg.code.length, { cg with code := cg.code ++ [(op, arg)] })

/-- CodeGen.emit_jump: emit with a zero iInteger placeholder offset. -/
def emitJump (cg : CG) (op : Opc) : Nat × CG :=
  emit cg op (.iIntegerV (.pInt 0))

/-- CodeGen.patch: overwrite the argument of instruction jidx with the
relative offset to target_idx.  patch is only ever called on an index
returned by emit, so the out-of-range branch is unreachable. -/
def patch (cg : CG) (jidx : Nat) (targetIdx : Nat) : CG :=
  match cg.code.get? jidx with
  | some (op, _) =>
    { cg with code :=
        cg.code.set jidx (op, .iIntegerV (.pInt ((targetIdx : Int) - (jidx : Int)))) }
  | none => cg

/-- Python set.add on a local-scope name set (membership is the only
observable). -/
def scopeAdd (s : List String) (n : String) : List String :=
  if n ∈ s then s else n :: s

/-- str() of a child as the generators apply it (only NAME/NUMBER/STRING
tokens reach str() in grammar-produced trees; the renderings of Tree and
None are placeholders). -/
def strOfNode : Option Node → String
  | some (.tok _ t) => t
  | some (.tree d _) => "Tree " ++ d
  | none => "None"

/-- next((ch for ch in children if hasattr(ch, "data")), None): the first
Tree child (Tokens and None have no data attribute). -/
def firstTree : List (Option Node) → Option Node
  | [] => none
  | some (.tree d c) :: _ => some (.tree d c)
  | _ :: rest => firstTree rest

/-- CodeGen._pick_binary_exprs: the Tree children, which must number
exactly two. -/
def pickBinaryExprs (children : List (Option Node)) :
    Except String (Option Node × Option Node) :=
  let exprs := children.filter (fun c => match c with
    | some (.tree _ _) => true
    | _ => false)
  match exprs with
  | [l, r] => .ok (l, r)
  | _ => .error "expected 2 expr children"

/-- The scanning loop of gen_for_stmt: find the loop variable (first NAME
token), the iterable (first Tree after the IN token) and the body (first
block Tree, which ends the scan). -/
def forScan : List (Option Node) → Option String → Bool → Option Node →
    (Option String × Option Node × Option Node)
  | [], v, _, it => (v, it, none)
  | c :: rest, v, seen, it =>
    match c with
    | some (.tok ty txt) =>
      if ty == "NAME" && v.isNone then forScan rest (some txt) seen it
      else if ty == "IN" then forScan rest v true it
      else forScan rest v seen it
    | some (.tree dt tch) =>
      if dt == "block" then (v, it, some (.tree dt tch))
      else if seen && it.isNone then forScan rest v seen (some (.tree dt tch))
      else forScan rest v seen it
    | none => forScan rest v seen it

/-- gen_func_def step 1: find the first NAME token; returns it and the
remaining children. -/
def fdName : List (Option Node) → Option (String × List (Option Node))
  | [] => none
  | some (.tok ty txt) :: rest =>
    if ty == "NAME" then some (txt, rest) else fdName rest
  | _ :: rest => fdName rest

/-- gen_func_def step 2: scan for an optional param_list, stopping early
at a block (which stays in the remainder for step 3). -/
def fdParams : List (Option Node) → (Option Node × List (Option Node))
  | [] => (none, [])
  | c :: rest =>
    match c with
    | some (.tree dt tch) =>
      if dt == "param_list" then (some (.tree dt tch), rest)
      else if dt == "block" then (none, some (.tree dt tch) :: rest)
      else fdParams rest
    | _ => fdParams rest

/-- gen_func_def step 3: the first block Tree. -/
def fdBlock : List (Option Node) → Option Node
  | [] => none
  | some (.tree dt tch) :: rest =>
    if dt == "block" then some (.tree dt tch) else fdBlock rest
  | _ :: rest => fdBlock rest

/-- NAME tokens of a parameter list, in order. -/
def nameToks : List (Option Node) → List String
  | [] => []
  | some (.tok ty txt) :: rest =>
    if ty == "NAME" then txt :: nameToks rest else nameToks rest
  | _ :: rest => nameToks rest

/-- gen_lambda's parameter collection: NAME tokens directly, or inside a
nested name_list Tree. -/
def lambdaParamNames : List (Option Node) → List String
  | [] => []
  | some (.tok ty txt) :: rest =>
    if ty == "NAME" then txt :: lambdaParamNames rest else lambdaParamNames rest
  | some (.tree dt tch) :: rest =>
    if dt == "name_list" then nameToks tch ++ lambdaParamNames rest
    else lambdaParamNames rest
  | _ :: rest => lambdaParamNames rest

/-- The clause-collection state machine of gen_if_stmt. -/
def ifScan : List (Option Node) → Option String → Option Node →
    List (Option Node × Option Node) → Option Node →
    Except String (List (Option Node × Option Node) × Option Node)
  | [], _, _, clauses, elseB => .ok (clauses.reverse, elseB)
  | c :: rest, mode, pending, clauses, elseB =>
    match c with
    | some (.tok ty _) =>
      if ty == "IF" then ifScan rest (some "if") none clauses elseB
      else if ty == "ELIF" then ifScan rest (some "elif") none clauses elseB
      else if ty == "ELSE" then ifScan rest (some "else") none clauses elseB
      else ifScan rest mode pending clauses elseB
    | some (.tree dt tch) =>
      if dt == "block" then
        if mode == some "if" || mode == some "elif" then
          match pending with
          | none => .error "if_stmt: missing condition before block"
          | some cond =>
            ifScan rest mode none ((some cond, some (.tree dt tch)) :: clauses) elseB
        else if mode == some "else" then
          ifScan rest mode pending clauses (some (.tree dt tch))
        else .error "if_stmt: unexpected block"
      else
        if mode == some "if" || mode == some "elif" then
          ifScan rest mode (some (.tree dt tch)) clauses elseB
        else ifScan rest mode pending clauses elseB
    | none => ifScan rest mode pending clauses elseB

/-- gen_lambda's child scan: remember the last parameter Tree and the last
lambda_body_* Tree. -/
def lambdaScan : List (Option Node) → Option Node → Option Node →
    (Option Node × Option Node)
  | [], p, b => (p, b)
  | some (.tree dt tch) :: rest, p, b =>
    if dt == "lambda_param_single" || dt == "lambda_param_list" then
      lambdaScan rest (some (.tree dt tch)) b
    else if List.isPrefixOf "lambda_body_".data dt.data then
      lambdaScan rest p (some (.tree dt tch))
    else lambdaScan rest p b
  | _ :: rest, p, b => lambdaScan rest p b

/-- First Tree child whose rule name is block (gen_lambda's block body
lookup; defaults to None as in the source). -/
def firstBlock : List (Option Node) → Option Node
  | [] => none
  | some (.tree dt tch) :: rest =>
    if dt == "block" then some (.tree dt tch) else firstBlock rest
  | _ :: rest => firstBlock rest

/-- Binary expression node kinds and their opcodes (gen_add .. gen_in_op). -/
def binOpcodeOf (d : String) : Option Opc :=
  if d == "add" then some .BIN_ADD
  else if d == "sub" then some .BIN_SUB
  else if d == "mul" then some .BIN_MUL
  else if d == "div" then some .BIN_DIV
  else if d == "mod" then some .BIN_MOD
  else if d == "eq" then some .EQ
  else if d == "ne" then some .NEQ
  else if d == "gt" then some .GT
  else if d == "lt" then some .LT
  else if d == "ge" then some .GTE
  else if d == "le" then some .LTE
  else if d == "in_op" then some .BIN_IN
  else none

mutual

/-- CodeGen._gen of codegen.py: dispatch a node to its generator.  None
and Token children generate nothing; an unknown Tree kind is a
CodeGenError.  Fuel bounds the recursion depth (model artifact). -/
def genNode : Nat → CG → Option Node → Except String CG
  | _, cg, none => .ok cg
  | _, cg, some (.tok _ _) => .ok cg
  | 0, _, some (.tree _ _) => .error "compiler fuel exhausted (model artifact)"
  | fuel + 1, cg, some (.tree d ch) =>
    if d == "start" || d == "block" then genStmts fuel cg ch
    else if d == "assign" then
      match ch.get? 0, ch.get? 1 with
      | some nameTok, some expr => do
        let name := strOfNode nameTok
        let cg1 ← genNode fuel cg expr
        match cg1.localScopes with
        | top :: restSc =>
          if name ∈ top then .ok (emit cg1 .STORE_LOCAL (.iStringV name)).2
          else
            -- inside a function: new locals by default
            .ok (emit { cg1 with localScopes := scopeAdd top name :: restSc }
                  .STORE_LOCAL (.iStringV name)).2
        | [] => .ok (emit cg1 .STORE (.iStringV name)).2
      | _, _ => .error "IndexError: assign children"
    else if d == "print_stmt" then
      match firstTree ch with
      | some t => do
        let cg1 ← genNode fuel cg (some t)
        .ok (emit cg1 .PRINT .iNilV).2
      | none => .ok (emit (emit cg .PUSH .iNilV).2 .PRINT .iNilV).2
    else if d == "return_stmt" then
      match firstTree ch with
      | some t => do
        let cg1 ← genNode fuel cg (some t)
        .ok (emit cg1 .RETURN .iNilV).2
      | none => .ok (emit (emit cg .PUSH .iNilV).2 .RETURN .iNilV).2
    else if d == "func_def" then
      match fdName ch with
      | none => .error "func_def: missing function name"
      | some (name, rest1) =>
        let (plist, rest2) := fdParams rest1
        match fdBlock rest2 with
        | none => .error "func_def: missing block"
        | some body => do
          let params := match plist with
            | some (.tree _ pch) => nameToks pch
            | _ => []
          -- compile the body in a fresh CodeGen seeded with the params
          let innerEnd ← genNode fuel ⟨[], [params]⟩ (some body)
          let inner1 := (emit innerEnd .PUSH .iNilV).2
          let inner2 := (emit inner1 .RETURN .iNilV).2
          let fn := Obj.iFunctionV inner2.code (params.length : Int) params
          let cg1 := (emit cg .PUSH fn).2
          .ok (emit cg1 .STORE (.iStringV name)).2
    else if d == "lambda" then
      let (paramsTree, bodyTree) := lambdaScan ch none none
      do
      let params ←
        (match paramsTree with
        | some (.tree pd pch) =>
          if pd == "lambda_param_single" then
            match pch.get? 0 with
            | some (some (.tok ty txt)) =>
              .ok (if ty == "NAME" then [txt] else [])
            | some _ => .ok []
            | none => .error "IndexError: lambda_param_single children"
          else .ok (lambdaParamNames pch)
        | _ => .ok ([] : List String))
      let inner ←
        (match bodyTree with
        | some (.tree bd bch) =>
          if bd == "lambda_body_expr" then do
            let innerEnd ← genNode fuel ⟨[], [params]⟩ (firstTree bch)
            .ok (emit innerEnd .RETURN .iNilV).2
          else do
            let innerEnd ← genNode fuel ⟨[], [params]⟩ (firstBlock bch)
            .ok (emit (emit innerEnd .PUSH .iNilV).2 .RETURN .iNilV).2
        | _ => .error "AttributeError: lambda body is None")
      let fn := Obj.iFunctionV inner.code (params.length : Int) params
      .ok (emit cg .PUSH fn).2
    else if d == "for_stmt" then
      match forScan ch none false none with
      | (some varName, some iterable, some body) => do
        let cg1 ← genNode fuel cg (some iterable)
        let cg2 := (emit cg1 .ITER_INIT .iNilV).2
        let loopTop := cg2.code.length
        let cg3 := (emit cg2 .ITER_NEXT .iNilV).2
        let (jExit, cg4) := emitJump cg3 .JUMP_IF_FALSE
        let cg5 :=
          match cg4.localScopes with
          | top :: restSc =>
            (emit { cg4 with localScopes := scopeAdd top varName :: restSc }
              .STORE_LOCAL (.iStringV varName)).2
          | [] => (emit cg4 .STORE (.iStringV varName)).2
        let cg6 ← genNode fuel cg5 (some body)
        let (jBack, cg7) := emitJump cg6 .JUMP
        let cg8 := patch cg7 jBack loopTop
        let exitIdx := cg8.code.length
        let cg9 := patch cg8 jExit exitIdx
        .ok (emit cg9 .POP .iNilV).2
      | _ => .error "for_stmt: missing pieces (var, iterable, or block)"
    else if d == "number" then
      match ch.get? 0 with
      | some c0 =>
        match parseInt (strOfNode c0) with
        | some n => .ok (emit cg .PUSH (.iIntegerV (.pInt n))).2
        | none => .error "ValueError: invalid int literal"
      | none => .error "IndexError: number children"
    else if d == "string" then
      match ch.get? 0 with
      | some c0 =>
        let s := strOfNode c0
        let s2 :=
          if s.length ≥ 2 && (s.take 1 == "\"" || s.take 1 == "\x27") then
            (s.drop 1).dropRight 1
          else s
        .ok (emit cg .PUSH (.iStringV s2)).2
      | none => .error "IndexError: string children"
    else if d == "true" then .ok (emit cg .PUSH (.iBoolV true)).2
    else if d == "false" then .ok (emit cg .PUSH (.iBoolV false)).2
    else if d == "var" then
      match ch.get? 0 with
      | some c0 =>
        let name := strOfNode c0
        (match cg.localScopes with
        | top :: _ =>
          if name ∈ top then .ok (emit cg .PUSH_LOCAL (.iStringV name)).2
          else .ok (emit cg .PUSH_GLOBAL (.iStringV name)).2
        | [] => .ok (emit cg .PUSH_GLOBAL (.iStringV name)).2)
      | none => .error "IndexError: var children"
    else if d == "list" then
      match ch with
      | [] => .ok (emit cg .MAKE_LIST (.iIntegerV (.pInt 0))).2
      | argList :: _ =>
        match argList with
        | none => .ok (emit cg .MAKE_LIST (.iIntegerV (.pInt 0))).2
        | some (.tree ad aCh) =>
          if ad == "arg_list" then do
            let (cg1, _) ← genArgs fuel cg aCh 0
            .ok (emit cg1 .MAKE_LIST (.iIntegerV (.pInt aCh.length))).2
          else do
            let cg1 ← genNode fuel cg (some (.tree ad aCh))
            .ok (emit cg1 .MAKE_LIST (.iIntegerV (.pInt 1))).2
        | some (.tok ty txt) => do
          let cg1 ← genNode fuel cg (some (.tok ty txt))
          .ok (emit cg1 .MAKE_LIST (.iIntegerV (.pInt 1))).2
    else if d == "dict" then
      match ch with
      | [] => .ok (emit cg .MAKE_DICT (.iIntegerV (.pInt 0))).2
      | [none] => .ok (emit cg .MAKE_DICT (.iIntegerV (.pInt 0))).2
      | items :: _ => do
        let elems := match items with
          | some (.tree id2 ich) =>
            if id2 == "dict_items" then ich else [items]
          | _ => [items]
        let (cg1, n) ← genDictItems fuel cg elems 0
        .ok (emit cg1 .MAKE_DICT (.iIntegerV (.pInt n))).2
    else if d == "func_call" then
      match ch.get? 0 with
      | some c0 => do
        let name := strOfNode c0
        let cg1 ←
          (match ch.get? 1 with
          | some (some (.tree ad aCh)) =>
            if ad == "arg_list" then genEach fuel cg aCh else .ok cg
          | _ => .ok cg)
        -- the source emits CALL_FN with an iString argument here
        .ok (emit cg1 .CALL_FN (.iStringV name)).2
      | none => .error "IndexError: func_call children"
    else if (binOpcodeOf d).isSome then do
      let (l, r) ← pickBinaryExprs ch
      let cg1 ← genNode fuel cg l
      let cg2 ← genNode fuel cg1 r
      .ok (emit cg2 ((binOpcodeOf d).getD .BIN_ADD) .iNilV).2
    else if d == "neg" then
      match ch.get? 0 with
      | some c0 => do
        let cg1 := (emit cg .PUSH (.iIntegerV (.pInt 0))).2
        let cg2 ← genNode fuel cg1 c0
        .ok (emit cg2 .BIN_SUB .iNilV).2
      | none => .error "IndexError: neg children"
    else if d == "not_op" then
      match firstTree ch with
      | some t => do
        let cg1 ← genNode fuel cg (some t)
        .ok (emit cg1 .NOT .iNilV).2
      | none => .ok (emit (emit cg .PUSH (.iBoolV false)).2 .NOT .iNilV).2
    else if d == "and_op" then do
      let (l, r) ← pickBinaryExprs ch
      let cg1 ← genNode fuel cg l
      let (jFalse, cg2) := emitJump cg1 .JUMP_IF_FALSE
      let cg3 ← genNode fuel cg2 r
      let (jEnd, cg4) := emitJump cg3 .JUMP
      let cg5 := patch cg4 jFalse cg4.code.length
      let cg6 := (emit cg5 .PUSH (.iBoolV false)).2
      .ok (patch cg6 jEnd cg6.code.length)
    else if d == "or_op" then do
      let (l, r) ← pickBinaryExprs ch
      let cg1 ← genNode fuel cg l
      let (jTrue, cg2) := emitJump cg1 .JUMP_IF_TRUE
      let cg3 ← genNode fuel cg2 r
      let (jEnd, cg4) := emitJump cg3 .JUMP
      let cg5 := patch cg4 jTrue cg4.code.length
      let cg6 := (emit cg5 .PUSH (.iBoolV true)).2
      .ok (patch cg6 jEnd cg6.code.length)
    else if d == "if_stmt" then do
      let (clauses, elseB) ← ifScan ch none none [] none
      let (cg1, endJs) ← genIfClauses fuel cg clauses []
      let cg2 ← genNode fuel cg1 elseB
      let endLabel := cg2.code.length
      .ok (endJs.foldl (fun c j => patch c j endLabel) cg2)
    else if d == "expr_stmt" then
      match ch.get? 0 with
      | some c0 => do
        let cg1 ← genNode fuel cg c0
        .ok (emit cg1 .POP .iNilV).2
      | none => .error "IndexError: expr_stmt children"
    else if d == "lvalue_assign" then
      match ch.get? 0, ch.get? 1, ch.get? 2 with
      | some nameTok, some chainNode, some valueExpr =>
        let base := strOfNode nameTok
        let cg1 :=
          match cg.localScopes with
          | top :: _ =>
            if base ∈ top then (emit cg .PUSH_LOCAL (.iStringV base)).2
            else (emit cg .PUSH_GLOBAL (.iStringV base)).2
          | [] => (emit cg .PUSH_GLOBAL (.iStringV base)).2
        (match chainNode with
        | some (.tree _ hops) => do
          let cg2 ← genHops fuel cg1 hops.dropLast
          match hops.getLast? with
          | none => .error "IndexError: empty lvalue chain"
          | some lastHop =>
            match lastHop with
            | some (.tree hd hch) =>
              if hd == "l_attr" then
                match hch.get? 0 with
                | some nameTok2 => do
                  let cg3 ← genNode fuel cg2 valueExpr
                  .ok (emit cg3 .SET_ATTR (.iStringV (strOfNode nameTok2))).2
                | none => .error "IndexError: l_attr children"
              else if hd == "l_index" then
                match hch.get? 0 with
                | some keyExpr => do
                  let cg3 ← genNode fuel cg2 keyExpr
                  let cg4 ← genNode fuel cg3 valueExpr
                  .ok (emit cg4 .SET_INDEX .iNilV).2
                | none => .error "IndexError: l_index children"
              else .error "unknown final hop"
            | _ => .error "AttributeError: final hop has no data"
        | _ => .error "AttributeError: lvalue chain has no children")
      | _, _, _ => .error "IndexError: lvalue_assign children"
    else if d == "postfix" || d == "postfix_call" then
      match ch with
      | [] => .error "IndexError: postfix children"
      | base :: sufs => do
        let cg1 ← genNode fuel cg base
        genSuffixes fuel cg1 sufs
    else if d == "call" || d == "index" || d == "attr" || d == "arg_list" then
      .ok cg
    else .error "No generator for node kind"
termination_by structural fuel _ _ => fuel

/-- The statement loops of gen_start and gen_block: generate children in
order, stopping once the last emitted instruction is a RETURN. -/
def genStmts : Nat → CG → List (Option Node) → Except String CG
  | _, cg, [] => .ok cg
  | 0, _, _ :: _ => .error "compiler fuel exhausted (model artifact)"
  | fuel + 1, cg, c :: rest => do
    let cg1 ← genNode fuel cg c
    let stop : Bool := match cg1.code.getLast? with
      | some (op, _) => op == .RETURN
      | none => false
    if stop then .ok cg1 else genStmts fuel cg1 rest
termination_by structural fuel _ _ => fuel

/-- Plain sequential _gen over children (argument lists). -/
def genEach : Nat → CG → List (Option Node) → Except String CG
  | _, cg, [] => .ok cg
  | 0, _, _ :: _ => .error "compiler fuel exhausted (model artifact)"
  | fuel + 1, cg, c :: rest => do
    let cg1 ← genNode fuel cg c
    genEach fuel cg1 rest
termination_by structural fuel _ _ => fuel

/-- Sequential _gen over call arguments, counting them (gen_postfix). -/
def genArgs : Nat → CG → List (Option Node) → Nat → Except String (CG × Nat)
  | _, cg, [], n => .ok (cg, n)
  | 0, _, _ :: _, _ => .error "compiler fuel exhausted (model artifact)"
  | fuel + 1, cg, c :: rest, n => do
    let cg1 ← genNode fuel cg c
    genArgs fuel cg1 rest (n + 1)
termination_by structural fuel _ _ _ => fuel

/-- The dict_item loop of gen_dict: push key (bare name or quoted string,
else fall back to _gen), push value, count pairs. -/
def genDictItems : Nat → CG → List (Option Node) → Nat →
    Except String (CG × Nat)
  | _, cg, [], n => .ok (cg, n)
  | 0, _, _ :: _, _ => .error "compiler fuel exhausted (model artifact)"
  | fuel + 1, cg, it :: rest, n =>
    match it with
    | some (.tree _ itch) =>
      (match itch.get? 0, itch.get? 1 with
      | some keyNode, some valNode => do
        let cg1 ←
          (match keyNode with
          | some (.tree kd kch) =>
            if kd == "key_name" then
              match kch.get? 0 with
              | some nameTok =>
                .ok (emit cg .PUSH (.iStringV (strOfNode nameTok))).2
              | none => .error "IndexError: key_name children"
            else if kd == "key_string" then
              match kch.get? 0 with
              | some strTok =>
                let s := strOfNode strTok
                let s2 :=
                  if s.length ≥ 2 && (s.take 1 == "\"" || s.take 1 == "\x27")
                  then (s.drop 1).dropRight 1 else s
                .ok (emit cg .PUSH (.iStringV s2)).2
              | none => .error "IndexError: key_string children"
            else genNode fuel cg keyNode
          | _ => genNode fuel cg keyNode)
        let cg2 ← genNode fuel cg1 valNode
        genDictItems fuel cg2 rest (n + 1)
      | _, _ => .error "IndexError: dict_item children")
    | _ => .error "AttributeError: dict_item has no children"
termination_by structural fuel _ _ _ => fuel

/-- The suffix fold of gen_postfix: index, attribute and call suffixes,
left to right. -/
def genSuffixes : Nat → CG → List (Option Node) → Except String CG
  | _, cg, [] => .ok cg
  | 0, _, _ :: _ => .error "compiler fuel exhausted (model artifact)"
  | fuel + 1, cg, suf :: rest =>
    match suf with
    | none => genSuffixes fuel cg rest
    | some (.tok _ _) => .error "Unknown suffix node"
    | some (.tree dt sufCh) =>
      if dt == "index" then do
        let keyExpr := match sufCh with
          | [] => none
          | c :: _ => c
        let cg1 ← genNode fuel cg keyExpr
        genSuffixes fuel (emit cg1 .INDEX .iNilV).2 rest
      else if dt == "attr" then
        match sufCh.get? 0 with
        | some nameTok =>
          genSuffixes fuel (emit cg .GETATTR (.iStringV (strOfNode nameTok))).2 rest
        | none => .error "IndexError: attr children"
      else if dt == "call" then do
        let (cg1, argc) ←
          (match sufCh with
          | [] => .ok (cg, 0)
          | child :: _ =>
            match child with
            | none => .ok (cg, 0)
            | some (.tree ad argCh) =>
              if ad == "arg_list" then genArgs fuel cg argCh 0
              else do
                let cgx ← genNode fuel cg (some (.tree ad argCh))
                .ok (cgx, 1)
            | some (.tok ty txt) => do
              let cgx ← genNode fuel cg (some (.tok ty txt))
              .ok (cgx, 1))
        genSuffixes fuel (emit cg1 .CALL_FN (.iIntegerV (.pInt argc))).2 rest
      else .error "Unknown suffix node"
termination_by structural fuel _ _ => fuel

/-- The clause-emission loop of gen_if_stmt: condition, false-jump to the
next clause, body, end-jump (collected for the final patch). -/
def genIfClauses : Nat → CG → List (Option Node × Option Node) → List Nat →
    Except String (CG × List Nat)
  | _, cg, [], js => .ok (cg, js.reverse)
  | 0, _, _ :: _, _ => .error "compiler fuel exhausted (model artifact)"
  | fuel + 1, cg, (cond, blk) :: rest, js => do
    let cg1 ← genNode fuel cg cond
    let (jfalse, cg2) := emitJump cg1 .JUMP_IF_FALSE
    let cg3 ← genNode fuel cg2 blk
    let (jend, cg4) := emitJump cg3 .JUMP
    let cg5 := patch cg4 jfalse cg4.code.length
    genIfClauses fuel cg5 rest (jend :: js)
termination_by structural fuel _ _ _ => fuel

/-- The all-but-last hop walk of gen_lvalue_assign. -/
def genHops : Nat → CG → List (Option Node) → Except String CG
  | _, cg, [] => .ok cg
  | 0, _, _ :: _ => .error "compiler fuel exhausted (model artifact)"
  | fuel + 1, cg, hop :: rest =>
    match hop with
    | some (.tree hd hch) =>
      if hd == "l_attr" then
        match hch.get? 0 with
        | some nameTok =>
          genHops fuel (emit cg .GETATTR (.iStringV (strOfNode nameTok))).2 rest
        | none => .error "IndexError: l_attr children"
      else if hd == "l_index" then
        match hch.get? 0 with
        | some keyExpr => do
          let cg1 ← genNode fuel cg keyExpr
          genHops fuel (emit cg1 .INDEX .iNilV).2 rest
        | none => .error "IndexError: l_index children"
      else .error "unknown lvalue hop"
    | _ => .error "AttributeError: hop has no data"
termination_by structural fuel _ _ => fuel

end

/-! The serializer of serde.py.  Byte strings are List Nat; list elements
are bytes by construction (always < 256) on the encoding side. -/

/-- serde._uvar: unsigned LEB128 varint (7 data bits per byte, low first,
high bit marks continuation).  Negative inputs raise at the caller. -/
def uvar (n : Nat) : List Nat :=
  if n < 128 then [n] else (n % 128 + 128) :: uvar (n / 128)
termination_by n
decreasing_by
  simp_wf
  omega

/-- serde._read_uvar: none models the IndexError of reading past the end. -/
def readUvar : List Nat → Option (Nat × List Nat)
  | [] => none
  | b :: rest =>
    if b < 128 then some (b, rest)
    else (readUvar rest).map (fun vr => ((b - 128) + 128 * vr.1, vr.2))

/-- serde._zigzag. -/
def zigzag (n : Int) : Nat :=
  if 0 ≤ n then (2 * n).toNat else (2 * (-n) - 1).toNat

/-- serde._unzag. -/
def unzag (m : Nat) : Int :=
  if m % 2 == 0 then (m / 2 : Nat) else -(((m / 2 : Nat) : Int) + 1)

/-- UTF-8 encoding of one scalar value (str.encode).  Written with div and
mod; equal to the bit-level definition on the valid ranges. -/
def utf8Char (c : Nat) : List Nat :=
  if c < 128 then [c]
  else if c < 2048 then [192 + c / 64, 128 + c % 64]
  else if c < 65536 then [224 + c / 4096, 128 + c / 64 % 64, 128 + c % 64]
  else [240 + c / 262144, 128 + c / 4096 % 64, 128 + c / 64 % 64, 128 + c % 64]

/-- UTF-8 encoding of a character sequence. -/
def utf8Encode : List Char → List Nat
  | [] => []
  | c :: cs => utf8Char c.toNat ++ utf8Encode cs

/-- One UTF-8 continuation byte folded into the accumulator. -/
def cont1 (acc : Nat) : List Nat → Option (Nat × List Nat)
  | b :: r => if 128 ≤ b && b < 192 then some (acc * 64 + (b - 128), r) else none
  | [] => none

/-- Decode one UTF-8 scalar from the front of the buffer.  Continuation
bytes are range-checked; overlong and surrogate rejection is not modelled
(the encoder never produces either). -/
def decodeOne : List Nat → Option (Nat × List Nat)
  | [] => none
  | b0 :: rest =>
    if b0 < 128 then some (b0, rest)
    else if 192 ≤ b0 && b0 < 224 then cont1 (b0 - 192) rest
    else if 224 ≤ b0 && b0 < 240 then
      (cont1 (b0 - 224) rest).bind (fun p => cont1 p.1 p.2)
    else if 240 ≤ b0 && b0 < 248 then
      (cont1 (b0 - 240) rest).bind (fun p => (cont1 p.1 p.2).bind (fun q => cont1 q.1 q.2))
    else none

/-- cont1 consumes exactly one byte (a proof term used for termination). -/
def cont1_length {acc n : Nat} {l r : List Nat}
    (h : cont1 acc l = some (n, r)) : r.length < l.length := by
  cases l with
  | nil => simp [cont1] at h
  | cons b t =>
    simp only [cont1] at h
    split at h
    · simp only [Option.some.injEq, Prod.mk.injEq] at h
      obtain ⟨h1, h2⟩ := h
      subst h2
      simp
    · simp at h

/-- decodeOne consumes at least one byte (used for termination). -/
def decodeOne_length {n : Nat} {l r : List Nat}
    (h : decodeOne l = some (n, r)) : r.length < l.length := by
  cases l with
  | nil => simp [decodeOne] at h
  | cons b0 rest =>
    simp only [decodeOne] at h
    split at h
    · simp only [Option.some.injEq, Prod.mk.injEq] at h
      obtain ⟨h1, h2⟩ := h
      subst h2
      simp
    · split at h
      · have := cont1_length h
        simp only [List.length_cons]
        omega
      · split at h
        · cases hx : cont1 (b0 - 224) rest with
          | none => rw [hx] at h; simp at h
          | some p =>
            rw [hx] at h
            simp only [Option.some_bind] at h
            have l1 := cont1_length hx
            have l2 := cont1_length h
            simp only [List.length_cons]
            omega
        · split at h
          · cases hx : cont1 (b0 - 240) rest with
            | none => rw [hx] at h; simp at h
            | some p =>
              rw [hx] at h
              simp only [Option.some_bind] at h
              cases hy : cont1 p.1 p.2 with
              | none => rw [hy] at h; simp at h
              | some q =>
                rw [hy] at h
                simp only [Option.some_bind] at h
                have l1 := cont1_length hx
                have l2 := cont1_length hy
                have l3 := cont1_length h
                simp only [List.length_cons]
                omega
          · simp at h

/-- UTF-8 decoding of a whole buffer (bytes.decode): none models
UnicodeDecodeError. -/
def utf8Decode (buf : List Nat) : Option (List Char) :=
  match hbuf : buf with
  | [] => some []
  | b :: rest =>
    match hdec : decodeOne (b :: rest) with
    | some nr => (utf8Decode nr.2).map (fun cs => Char.ofNat nr.1 :: cs)
    | none => none
termination_by buf.length
decreasing_by
  simp_wf
  have := decodeOne_length hdec
  simp at this
  omega

/-- serde._enc_str: varint byte length, then UTF-8 bytes. -/
def encStr (s : String) : List Nat :=
  let b := utf8Encode s.data
  uvar b.length ++ b

/-- serde._dec_str: none models both the explicit length check (ValueError)
and a decode failure. -/
def decStr (buf : List Nat) : Option (String × List Nat) :=
  match readUvar buf with
  | none => none
  | some (ln, rest) =>
    if ln > rest.length then none
    else
      match utf8Decode (rest.take ln) with
      | some cs => some (String.mk cs, rest.drop ln)
      | none => none

/-- serde._enc_int: zig-zag then varint. -/
def encInt (n : Int) : List Nat := uvar (zigzag n)

/-- OPCODE_TO_BYTE of serde.py.  Opcode.CALL has no entry in the table. -/
def opByte : Opc → Option Nat
  | .BIN_ADD => some 1
  | .BIN_SUB => some 2
  | .BIN_MUL => some 3
  | .BIN_DIV => some 4
  | .BIN_MOD => some 5
  | .BIN_IN => some 6
  | .EQ => some 16
  | .NEQ => some 17
  | .GT => some 18
  | .LT => some 19
  | .GTE => some 20
  | .LTE => some 21
  | .NOT => some 22
  | .PUSH => some 32
  | .POP => some 33
  | .STORE => some 34
  | .PUSH_GLOBAL => some 35
  | .PUSH_LOCAL => some 36
  | .STORE_LOCAL => some 37
  | .CALL_FN => some 48
  | .RETURN => some 49
  | .GETATTR => some 64
  | .GETITEM => some 65
  | .INDEX => some 66
  | .SET_INDEX => some 67
  | .SET_ATTR => some 68
  | .MAKE_LIST => some 80
  | .MAKE_DICT => some 81
  | .ITER_INIT => some 96
  | .ITER_NEXT => some 97
  | .JUMP => some 112
  | .JUMP_IF_TRUE => some 113
  | .JUMP_IF_FALSE => some 114
  | .PRINT => some 128
  | .CALL => none

/-- BYTE_TO_OPCODE: the inverse mapping. -/
def byteToOp : Nat → Option Opc
  | 1 => some .BIN_ADD
  | 2 => some .BIN_SUB
  | 3 => some .BIN_MUL
  | 4 => some .BIN_DIV
  | 5 => some .BIN_MOD
  | 6 => some .BIN_IN
  | 16 => some .EQ
  | 17 => some .NEQ
  | 18 => some .GT
  | 19 => some .LT
  | 20 => some .GTE
  | 21 => some .LTE
  | 22 => some .NOT
  | 32 => some .PUSH
  | 33 => some .POP
  | 34 => some .STORE
  | 35 => some .PUSH_GLOBAL
  | 36 => some .PUSH_LOCAL
  | 37 => some .STORE_LOCAL
  | 48 => some .CALL_FN
  | 49 => some .RETURN
  | 64 => some .GETATTR
  | 65 => some .GETITEM
  | 66 => some .INDEX
  | 67 => some .SET_INDEX
  | 68 => some .SET_ATTR
  | 80 => some .MAKE_LIST
  | 81 => some .MAKE_DICT
  | 96 => some .ITER_INIT
  | 97 => some .ITER_NEXT
  | 112 => some .JUMP
  | 113 => some .JUMP_IF_TRUE
  | 114 => some .JUMP_IF_FALSE
  | 128 => some .PRINT
  | _ => none

/-- int() coercion applied by _enc_arg to the iInteger payload. -/
def pyIntOf : Pyv → Except String Int
  | .pInt n => .ok n
  | .pBool b => .ok (if b then 1 else 0)
  | .pStr s =>
    (match parseInt s with
    | some n => .ok n
    | none => .error "ValueError: invalid literal for int")
  | .pFlt q => .ok (if 0 ≤ q then q.floor else q.ceil)
  | _ => .error "TypeError: cannot make int"

/-- Concatenated _enc_str of the parameter names. -/
def encNames : List String → List Nat
  | [] => []
  | p :: r => encStr p ++ encNames r

mutual

/-- serde._enc_arg: tag Nil=0, Integer=1 (zig-zag varint), Bool=2,
String=3, Function=4 (varint arity, that many names, varint-prefixed
nested stream); other classes raise TypeError, a negative arity raises in
_uvar. -/
def encArgB : Obj → Except String (List Nat)
  | .iNilV => .ok [0]
  | .iIntegerV p => do
    let n ← pyIntOf p
    .ok (1 :: encInt n)
  | .iBoolV b => .ok [2, if b then 1 else 0]
  | .iStringV s => .ok (3 :: encStr s)
  | .iFunctionV code np ps =>
    if np < 0 then .error "uvar expects non-negative"
    else do
      let nested ← encStreamB code
      .ok (4 :: (uvar np.toNat ++ encNames ps ++ uvar nested.length ++ nested))
  | _ => .error "TypeError: cannot serialize arg type"

/-- serde._enc_stream: opcode byte then argument TLV, per instruction. -/
def encStreamB : List Instr → Except String (List Nat)
  | [] => .ok []
  | (op, a) :: rest =>
    match opByte op with
    | none => .error "Unknown opcode"
    | some b => do
      let ea ← encArgB a
      let er ← encStreamB rest
      .ok (b :: (ea ++ er))

end

/-- Read k length-prefixed strings (_dec_arg's parameter-name loop). -/
def decNames : Nat → List Nat → Option (List String × List Nat)
  | 0, buf => some ([], buf)
  | k + 1, buf =>
    match decStr buf with
    | none => none
    | some (s, rest) =>
      match decNames k rest with
      | none => none
      | some (ss, rest2) => some (s :: ss, rest2)

mutual

/-- serde._dec_arg.  Fuel bounds the nesting depth (model artifact); each
Function argument recurses into its exactly-sliced nested stream. -/
def decArgF : Nat → List Nat → Except String (Obj × List Nat)
  | 0, _ => .error "decoder fuel exhausted (model artifact)"
  | _ + 1, [] => .error "IndexError: read past end"
  | fuel + 1, tag :: rest =>
    if tag == 0 then .ok (.iNilV, rest)
    else if tag == 1 then
      match readUvar rest with
      | none => .error "IndexError: read past end"
      | some (v, r) => .ok (.iIntegerV (.pInt (unzag v)), r)
    else if tag == 2 then
      match rest with
      | b :: r => .ok (.iBoolV (b != 0), r)
      | [] => .error "IndexError: read past end"
    else if tag == 3 then
      match decStr rest with
      | some (s, r) => .ok (.iStringV s, r)
      | none => .error "ValueError: bad string"
    else if tag == 4 then
      match readUvar rest with
      | none => .error "IndexError: read past end"
      | some (nParams, r1) =>
        match decNames nParams r1 with
        | none => .error "ValueError: bad string"
        | some (names, r2) =>
          match readUvar r2 with
          | none => .error "IndexError: read past end"
          | some (blobLen, r3) =>
            if blobLen > r3.length then
              .error "function blob length out of range"
            else do
              let nested ← decStreamF fuel (r3.take blobLen)
              .ok (.iFunctionV nested (nParams : Int) names, r3.drop blobLen)
    else .error "Unknown arg tag"
termination_by structural fuel _ => fuel

/-- serde._dec_stream: decode instructions until the buffer is exhausted. -/
def decStreamF : Nat → List Nat → Except String (List Instr)
  | _, [] => .ok []
  | 0, _ :: _ => .error "decoder fuel exhausted (model artifact)"
  | fuel + 1, opb :: rest =>
    match byteToOp opb with
    | none => .error "Unknown opcode byte"
    | some op => do
      let (a, r) ← decArgF fuel rest
      let es ← decStreamF fuel r
      .ok ((op, a) :: es)
termination_by structural fuel _ => fuel

end

/-- One CRC-32 bit step (reflected polynomial 0xEDB88320). -/
def crcStep (x : Nat) : Nat :=
  if x % 2 == 1 then Nat.xor (x / 2) 3988292384 else x / 2

/-- Eight bit steps per byte. -/
def crcIter : Nat → Nat → Nat
  | 0, x => x
  | k + 1, x => crcIter k (crcStep x)

def crc32Aux (crc : Nat) : List Nat → Nat
  | [] => crc
  | b :: r => crc32Aux (crcIter 8 (Nat.xor crc (b % 256))) r

/-- zlib.crc32 (standard CRC-32, bit for bit). -/
def crc32 (bs : List Nat) : Nat :=
  Nat.xor (crc32Aux 4294967295 bs) 4294967295

/-- int.to_bytes(k, "big"); the OverflowError for oversize values is
checked at the call sites in pack. -/
def toBytesBE : Nat → Nat → List Nat
  | 0, _ => []
  | k + 1, n => toBytesBE k (n / 256) ++ [n % 256]

/-- int.from_bytes(.., "big"). -/
def fromBytesBE (bs : List Nat) : Nat :=
  bs.foldl (fun acc b => acc * 256 + b) 0

/-- The DEFLATE layer (zlib.compress / zlib.decompress) is host
functionality; the container is parameterized over it.  zlib's contract is
that decomp inverts comp; decomp may fail on corrupt input. -/
structure Codec where
  comp : List Nat → List Nat
  decomp : List Nat → Except String (List Nat)

/-- The trivial codec (identity compression), usable wherever only the
container logic matters. -/
def idCodec : Codec := ⟨fun b => b, fun b => .ok b⟩

/-- MAGIC = b"PPBC". -/
def magicB : List Nat := [80, 80, 66, 67]

/-- json.dumps({}) : the metadata bytes serialize always writes. -/
def emptyMeta : List Nat := [123, 125]

/-- serde._pack: magic, 2-byte version (1), 2-byte flags, 4-byte metadata
length, 4-byte body length, 4-byte CRC32 of the compressed body, metadata,
compressed body. -/
def pack (codec : Codec) (body : List Nat) (metaBytes : List Nat) (flags : Nat) :
    Except String (List Nat) :=
  let compressed := codec.comp body
  if metaBytes.length ≥ 4294967296 then .error "OverflowError"
  else if compressed.length ≥ 4294967296 then .error "OverflowError"
  else if flags ≥ 65536 then .error "OverflowError"
  else
    .ok (magicB ++ toBytesBE 2 1 ++ toBytesBE 2 flags ++
      toBytesBE 4 metaBytes.length ++ toBytesBE 4 compressed.length ++
      toBytesBE 4 (crc32 compressed % 4294967296) ++ metaBytes ++ compressed)

/-- serde._unpack: validate magic and version, read flags (never
validated), check header bounds and CRC, then decompress.  json.loads of
the metadata is host functionality modelled as a passthrough of the raw
bytes (no claim concerns metadata content). -/
def unpack (codec : Codec) (mv : List Nat) :
    Except String (List Nat × List Nat) :=
  if mv.length < 6 || mv.take 4 ≠ magicB then .error "bad magic"
  else
    let ver := fromBytesBE ((mv.drop 4).take 2)
    if ver ≠ 1 then .error "unsupported bytecode version"
    else
      let _flags := fromBytesBE ((mv.drop 6).take 2)
      let metaLen := fromBytesBE ((mv.drop 8).take 4)
      let bodyLen := fromBytesBE ((mv.drop 12).take 4)
      let crcExpect := fromBytesBE ((mv.drop 16).take 4)
      let endMeta := 20 + metaLen
      let endBody := endMeta + bodyLen
      if endMeta > mv.length || endBody > mv.length then
        .error "bytecode header lengths out of range"
      else
        let metaBytes := (mv.drop 20).take metaLen
        let body := (mv.drop endMeta).take bodyLen
        if crc32 body % 4294967296 ≠ crcExpect then .error "bytecode CRC mismatch"
        else do
          let raw ← codec.decomp body
          .ok (raw, metaBytes)

/-- serde.serialize (meta defaults to the empty JSON object, flags to 0). -/
def serialize (codec : Codec) (code : List Instr) : Except String (List Nat) := do
  let body ← encStreamB code
  pack codec body emptyMeta 0

/-- serde.deserialize.  The decoder fuel is one more than the byte count,
which the round-trip proof shows is always enough. -/
def deserialize (codec : Codec) (blob : List Nat) : Except String (List Instr) := do
  let (body, _) ← unpack codec blob
  decStreamF (body.length + 1) body

mutual

/-- The instruction-argument shapes the serializer round-trips: Nil,
Integer (with an int payload), Bool, String, and Function values whose
declared arity matches their parameter-name count, recursively. -/
def serializableArg : Obj → Bool
  | .iNilV => true
  | .iIntegerV (.pInt _) => true
  | .iBoolV _ => true
  | .iStringV _ => true
  | .iFunctionV code np ps => (np == (ps.length : Int)) && wfCode code
  | _ => false

/-- Instruction lists whose opcodes are in the opcode table and whose
arguments are serializable. -/
def wfCode : List Instr → Bool
  | [] => true
  | (op, a) :: rest => (opByte op).isSome && serializableArg a && wfCode rest

end

/-! Concrete inputs used by the theorems below. -/

/-- An empty host-callable environment (no natives registered). -/
def hostNone : Nat → List Obj → Except String Obj :=
  fun _ _ => .error "no host callable registered"

/-- A fresh interpreter state with empty stack, globals, frames, method
table and output. -/
def emptyState : VMState := ⟨[], [], [], [], []⟩

/-- An integer-literal parse-tree node. -/
def numNode (n : Int) : Node := .tree "number" [some (.tok "NUMBER" (toString n))]

/-- The parse tree of the expression 1 and 2. -/
def andOneTwo : Node := .tree "and_op" [some (numNode 1), some (numNode 2)]

/-- The bytecode gen_and_op emits for 1 and 2. -/
def andOneTwoCode : List Instr :=
  [(.PUSH, .iIntegerV (.pInt 1)),
   (.JUMP_IF_FALSE, .iIntegerV (.pInt 3)),
   (.PUSH, .iIntegerV (.pInt 2)),
   (.JUMP, .iIntegerV (.pInt 2)),
   (.PUSH, .iBoolV false)]

/-- The parse tree of the top-level program: for x in [1]: return 1 end. -/
def forReturnProg : Node :=
  .tree "start" [some (.tree "for_stmt"
    [some (.tok "NAME" "x"), some (.tok "IN" "in"),
     some (.tree "list" [some (.tree "arg_list" [some (numNode 1)])]),
     some (.tree "block" [some (.tree "return_stmt" [some (numNode 1)])])])]

/-- The bytecode the compiler emits for forReturnProg. -/
def forReturnCode : List Instr :=
  [(.PUSH, .iIntegerV (.pInt 1)),
   (.MAKE_LIST, .iIntegerV (.pInt 1)),
   (.ITER_INIT, .iNilV),
   (.ITER_NEXT, .iNilV),
   (.JUMP_IF_FALSE, .iIntegerV (.pInt 5)),
   (.STORE, .iStringV "x"),
   (.PUSH, .iIntegerV (.pInt 1)),
   (.RETURN, .iNilV),
   (.JUMP, .iIntegerV (.pInt (-5))),
   (.POP, .iNilV)]

/-- A lambda whose body is the bare name n: params => n. -/
def lambdaFreeVar (params : List String) (n : String) : Node :=
  .tree "lambda"
    [some (.tree "lambda_param_list" (params.map (fun p => some (.tok "NAME" p)))),
     some (.tree "lambda_body_expr" [some (.tree "var" [some (.tok "NAME" n)])])]

/-- An instruction list whose Function argument declares arity 0 but one
parameter name. -/
def arityMismatchFn : List Instr := [(.PUSH, .iFunctionV [] 0 ["x"])]

/-- A well-formed instruction list with a nested function body, a negative
integer, a non-ASCII string and a jump. -/
def sampleCode : List Instr :=
  [(.PUSH, .iIntegerV (.pInt (-7))),
   (.PUSH, .iFunctionV [(.PUSH_GLOBAL, .iStringV "x"), (.RETURN, .iNilV)] 0 []),
   (.PUSH, .iStringV "h\u00e9llo"),
   (.PUSH, .iBoolV true),
   (.JUMP, .iIntegerV (.pInt (-3))),
   (.STORE, .iStringV "f")]

/-- The callee shapes for which vm.py's CALL_FN dispatch has no branch:
everything except iFunction, iPyfunction, iPyObject (iBoundMethod is
unwrapped before the dispatch). -/
def fallsThroughCallee : Obj → Bool
  | .iFunctionV _ _ _ => false
  | .iPyfunctionV _ _ => false
  | .iPyObjectV _ => false
  | .iBoundMethodV _ _ => false
  | _ => true


/-- A number-literal node whose token string is left uninterpreted. -/
def numTokNode (s : String) : Node := .tree "number" [some (.tok "NUMBER" s)]

/-- The parse tree of `a and b` for two number literals. -/
def andNode (sa sb : String) : Node :=
  .tree "and_op" [some (numTokNode sa), some (numTokNode sb)]

/-- The parse tree of `a or b` for two number literals. -/
def orNode (sa sb : String) : Node :=
  .tree "or_op" [some (numTokNode sa), some (numTokNode sb)]

/-- The instruction sequence gen_and_op emits for two number literals. -/
def andCode (na nb : Int) : List Instr :=
  [(.PUSH, .iIntegerV (.pInt na)),
   (.JUMP_IF_FALSE, .iIntegerV (.pInt 3)),
   (.PUSH, .iIntegerV (.pInt nb)),
   (.JUMP, .iIntegerV (.pInt 2)),
   (.PUSH, .iBoolV false)]

/-- The instruction sequence gen_or_op emits for two number literals. -/
def orCode (na nb : Int) : List Instr :=
  [(.PUSH, .iIntegerV (.pInt na)),
   (.JUMP_IF_TRUE, .iIntegerV (.pInt 3)),
   (.PUSH, .iIntegerV (.pInt nb)),
   (.JUMP, .iIntegerV (.pInt 2)),
   (.PUSH, .iBoolV true)]

/-- Discriminator: is the value an iBool instance? -/
def objIsBool : Obj → Bool
  | .iBoolV _ => true
  | _ => false

/-- A small well-formed instruction list (push 5; return). -/
def witCode : List Instr := [(.PUSH, .iIntegerV (.pInt 5)), (.RETURN, .iNilV)]

/-- The container serialize produces for arityMismatchFn (identity codec). -/
def amBlob : List Nat :=
  [80, 80, 66, 67, 0, 1, 0, 0, 0, 0, 0, 2, 0, 0, 0, 6, 165, 202, 155, 156,
   123, 125, 32, 4, 0, 1, 120, 0]

/-! ## Supporting lemmas -/

theorem uvar_length_pos (n : Nat) : 0 < (uvar n).length := by
  rw [uvar]
  split <;> simp

theorem readUvar_uvar (n : Nat) : ∀ r : List Nat, readUvar (uvar n ++ r) = some (n, r) := by
  induction n using Nat.strong_induction_on with
  | _ n ih =>
    intro r
    rw [uvar]
    by_cases h : n < 128
    · simp [h, readUvar]
    · have h2 : n / 128 < n := Nat.div_lt_self (by omega) (by omega)
      simp only [h, if_false, List.cons_append, readUvar]
      have h3 : ¬ (n % 128 + 128 < 128) := by omega
      simp only [h3, if_false, ih (n / 128) h2 r]
      simp
      omega

theorem unzag_zigzag (n : Int) : unzag (zigzag n) = n := by
  unfold zigzag unzag
  by_cases h : 0 ≤ n
  · simp only [h, if_true]
    have h2 : (2 * n).toNat % 2 = 0 := by omega
    simp only [h2]
    simp
    omega
  · simp only [h, if_false]
    have h2 : (2 * (-n) - 1).toNat % 2 = 1 := by omega
    simp only [h2]
    simp
    omega

theorem char_toNat_lt (c : Char) : c.toNat < 1114112 := by
  have h := c.valid
  unfold UInt32.isValidChar Nat.isValidChar at h
  have h2 : c.toNat = c.val.toNat := rfl
  rcases h with h | ⟨h3, h4⟩
  · have h5 : c.val.toNat < 55296 := h
    omega
  · have h5 : c.val.toNat < 1114112 := h4
    omega

theorem decodeOne_encChar (c : Char) (rest : List Nat) :
    decodeOne (utf8Char c.toNat ++ rest) = some (c.toNat, rest) := by
  have hlt : c.toNat < 1114112 := char_toNat_lt c
  rw [utf8Char]
  by_cases h1 : c.toNat < 128
  · simp only [if_pos h1, List.cons_append, List.nil_append]
    rw [decodeOne, if_pos h1]
  · by_cases h2 : c.toNat < 2048
    · simp only [if_neg h1, if_pos h2, List.cons_append, List.nil_append]
      rw [decodeOne]
      have hb0 : ¬ (192 + c.toNat / 64 < 128) := by omega
      have ha : (192 ≤ 192 + c.toNat / 64 && 192 + c.toNat / 64 < 224) = true := by
        simp only [Bool.and_eq_true, decide_eq_true_eq]
        omega
      rw [if_neg hb0, if_pos ha, cont1]
      have hb1 : (128 ≤ 128 + c.toNat % 64 && 128 + c.toNat % 64 < 192) = true := by
        simp only [Bool.and_eq_true, decide_eq_true_eq]
        omega
      rw [if_pos hb1]
      have hv : (192 + c.toNat / 64 - 192) * 64 + (128 + c.toNat % 64 - 128) = c.toNat := by
        omega
      rw [hv]
    · by_cases h3 : c.toNat < 65536
      · simp only [if_neg h1, if_neg h2, if_pos h3, List.cons_append, List.nil_append]
        rw [decodeOne]
        have hb0 : ¬ (224 + c.toNat / 4096 < 128) := by omega
        have hn1 : ¬ (192 ≤ 224 + c.toNat / 4096 && 224 + c.toNat / 4096 < 224) = true := by
          simp only [Bool.and_eq_true, decide_eq_true_eq]
          omega
        have ha : (224 ≤ 224 + c.toNat / 4096 && 224 + c.toNat / 4096 < 240) = true := by
          simp only [Bool.and_eq_true, decide_eq_true_eq]
          omega
        rw [if_neg hb0, if_neg hn1, if_pos ha, cont1]
        have hb1 : (128 ≤ 128 + c.toNat / 64 % 64 && 128 + c.toNat / 64 % 64 < 192) = true := by
          simp only [Bool.and_eq_true, decide_eq_true_eq]
          omega
        rw [if_pos hb1]
        simp only [Option.some_bind]
        rw [cont1]
        have hb2 : (128 ≤ 128 + c.toNat % 64 && 128 + c.toNat % 64 < 192) = true := by
          simp only [Bool.and_eq_true, decide_eq_true_eq]
          omega
        rw [if_pos hb2]
        have hv : ((224 + c.toNat / 4096 - 224) * 64 + (128 + c.toNat / 64 % 64 - 128)) * 64 +
            (128 + c.toNat % 64 - 128) = c.toNat := by omega
        rw [hv]
      · simp only [if_neg h1, if_neg h2, if_neg h3, List.cons_append, List.nil_append]
        rw [decodeOne]
        have hb0 : ¬ (240 + c.toNat / 262144 < 128) := by omega
        have hn1 : ¬ (192 ≤ 240 + c.toNat / 262144 && 240 + c.toNat / 262144 < 224) = true := by
          simp only [Bool.and_eq_true, decide_eq_true_eq]
          omega
        have hn2 : ¬ (224 ≤ 240 + c.toNat / 262144 && 240 + c.toNat / 262144 < 240) = true := by
          simp only [Bool.and_eq_true, decide_eq_true_eq]
          omega
        have ha : (240 ≤ 240 + c.toNat / 262144 && 240 + c.toNat / 262144 < 248) = true := by
          simp only [Bool.and_eq_true, decide_eq_true_eq]
          omega
        rw [if_neg hb0, if_neg hn1, if_neg hn2, if_pos ha, cont1]
        have hb1 : (128 ≤ 128 + c.toNat / 4096 % 64 && 128 + c.toNat / 4096 % 64 < 192) = true := by
          simp only [Bool.and_eq_true, decide_eq_true_eq]
          omega
        rw [if_pos hb1]
        simp only [Option.some_bind]
        rw [cont1]
        have hb2 : (128 ≤ 128 + c.toNat / 64 % 64 && 128 + c.toNat / 64 % 64 < 192) = true := by
          simp only [Bool.and_eq_true, decide_eq_true_eq]
          omega
        rw [if_pos hb2]
        simp only [Option.some_bind]
        rw [cont1]
        have hb3 : (128 ≤ 128 + c.toNat % 64 && 128 + c.toNat % 64 < 192) = true := by
          simp only [Bool.and_eq_true, decide_eq_true_eq]
          omega
        rw [if_pos hb3]
        have hv : (((240 + c.toNat / 262144 - 240) * 64 + (128 + c.toNat / 4096 % 64 - 128)) * 64 +
            (128 + c.toNat / 64 % 64 - 128)) * 64 + (128 + c.toNat % 64 - 128) = c.toNat := by
          omega
        rw [hv]

theorem utf8Char_ne_nil (n : Nat) : utf8Char n ≠ [] := by
  rw [utf8Char]
  split
  · simp
  · split
    · simp
    · split <;> simp

theorem utf8Decode_char (c : Char) (rest : List Nat) :
    utf8Decode (utf8Char c.toNat ++ rest) =
      (utf8Decode rest).map (fun cs => c :: cs) := by
  have hd := decodeOne_encChar c rest
  cases hb : utf8Char c.toNat with
  | nil => exact absurd hb (utf8Char_ne_nil _)
  | cons b t =>
    rw [hb] at hd
    simp only [List.cons_append] at hd ⊢
    rw [utf8Decode]
    split
    · rename_i nr heq
      rw [hd] at heq
      injection heq with h2
      subst h2
      simp only [Char.ofNat_toNat]
    · rename_i heq
      rw [hd] at heq
      simp at heq

theorem utf8Decode_encode (cs : List Char) : utf8Decode (utf8Encode cs) = some cs := by
  induction cs with
  | nil => rw [utf8Encode, utf8Decode]
  | cons c cs ih =>
    rw [utf8Encode, utf8Decode_char, ih]
    rfl

theorem decStr_encStr (s : String) (r : List Nat) :
    decStr (encStr s ++ r) = some (s, r) := by
  rw [encStr, decStr]
  simp only [List.append_assoc, readUvar_uvar]
  have hlen : ¬ ((utf8Encode s.data).length > (utf8Encode s.data ++ r).length) := by
    simp
  rw [if_neg hlen, List.take_left, List.drop_left, utf8Decode_encode]

theorem decNames_encNames (ps : List String) (r : List Nat) :
    decNames ps.length (encNames ps ++ r) = some (ps, r) := by
  induction ps generalizing r with
  | nil => rfl
  | cons p ps ih =>
    rw [List.length_cons, encNames, decNames]
    simp only [List.append_assoc, decStr_encStr, ih]

theorem byteToOp_opByte (op : Opc) (b : Nat) (h : opByte op = some b) :
    byteToOp b = some op := by
  cases op <;> first
    | (simp only [opByte, Option.some.injEq] at h; subst h; rfl)
    | (simp only [opByte] at h; exact absurd h (by simp))

theorem enc_total (k : Nat) :
    (∀ a : Obj, sizeOf a ≤ k → serializableArg a = true →
       ∃ ea, encArgB a = .ok ea)
    ∧ (∀ c : List Instr, sizeOf c ≤ k → wfCode c = true →
       ∃ ec, encStreamB c = .ok ec) := by
  induction k using Nat.strong_induction_on with
  | _ k ih =>
    constructor
    · intro a hsz hser
      match a with
      | .iNilV => exact ⟨[0], by simp [encArgB]⟩
      | .iIntegerV (.pInt n) =>
        exact ⟨1 :: encInt n, by simp only [encArgB, pyIntOf]; rfl⟩
      | .iIntegerV .pNone | .iIntegerV (.pBool _) | .iIntegerV (.pStr _)
      | .iIntegerV (.pFlt _) | .iIntegerV (.pObjList _) | .iIntegerV (.pDictO _)
      | .iIntegerV (.pCode _) | .iIntegerV (.pIter _) | .iIntegerV (.pHostFun _)
      | .iIntegerV (.pPair _ _) | .iIntegerV (.pObj _) =>
        simp [serializableArg] at hser
      | .iBoolV b => exact ⟨[2, if b then 1 else 0], by simp [encArgB]⟩
      | .iStringV str2 => exact ⟨3 :: encStr str2, by simp [encArgB]⟩
      | .iFunctionV code np ps =>
        simp only [serializableArg, Bool.and_eq_true, beq_iff_eq] at hser
        obtain ⟨hnp, hwfc⟩ := hser
        have hk : 0 < k := by
          have : 1 ≤ sizeOf (Obj.iFunctionV code np ps) := by simp <;> omega
          omega
        have hszc : sizeOf code ≤ k - 1 := by
          have : sizeOf code < sizeOf (Obj.iFunctionV code np ps) := by simp <;> omega
          omega
        obtain ⟨ec, hec⟩ := (ih (k - 1) (by omega)).2 code hszc hwfc
        refine ⟨4 :: (uvar np.toNat ++ encNames ps ++ uvar ec.length ++ ec), ?_⟩
        have hnpn : ¬ np < 0 := by omega
        simp only [encArgB, hnpn, if_false, hec]
        rfl
      | .iListV _ | .iDictV _ | .iPyfunctionV _ _ | .iPyObjectV _
      | .iBoundMethodV _ _ => simp [serializableArg] at hser
    · intro c hsz hwf
      match c with
      | [] => exact ⟨[], by simp [encStreamB]⟩
      | (op, a) :: rest =>
        simp only [wfCode, Bool.and_eq_true, Option.isSome_iff_exists] at hwf
        obtain ⟨⟨⟨b, hb⟩, hser⟩, hwfr⟩ := hwf
        have hk : 0 < k := by
          have : 1 ≤ sizeOf ((op, a) :: rest) := by simp <;> omega
          omega
        have hsza : sizeOf a ≤ k - 1 := by
          have : sizeOf a < sizeOf ((op, a) :: rest) := by simp <;> omega
          omega
        have hszr : sizeOf rest ≤ k - 1 := by
          have : sizeOf rest < sizeOf ((op, a) :: rest) := by simp <;> omega
          omega
        obtain ⟨ea, hea⟩ := (ih (k - 1) (by omega)).1 a hsza hser
        obtain ⟨er, her⟩ := (ih (k - 1) (by omega)).2 rest hszr hwfr
        exact ⟨b :: (ea ++ er), by simp only [encStreamB, hb, hea, her]; rfl⟩

theorem ebind_ok {α β : Type} (x : α) (f : α → Except String β) :
    (Except.ok x >>= f) = f x := rfl

theorem encArgB_nil : encArgB .iNilV = .ok [0] := by
  simp [encArgB]

theorem encArgB_int (n : Int) :
    encArgB (.iIntegerV (.pInt n)) = .ok (1 :: encInt n) := by
  simp only [encArgB, pyIntOf]
  rfl

theorem encArgB_bool (b : Bool) :
    encArgB (.iBoolV b) = .ok [2, if b then 1 else 0] := by
  simp [encArgB]

theorem encArgB_str (str2 : String) :
    encArgB (.iStringV str2) = .ok (3 :: encStr str2) := by
  simp [encArgB]

theorem encArgB_fn (code : List Instr) (np : Int) (ps : List String)
    (h : ¬ np < 0) (ec : List Nat) (hec : encStreamB code = .ok ec) :
    encArgB (.iFunctionV code np ps) =
      .ok (4 :: (uvar np.toNat ++ encNames ps ++ uvar ec.length ++ ec)) := by
  simp only [encArgB, if_neg h, hec]
  rfl

theorem encStreamB_nil : encStreamB [] = .ok [] := by
  simp [encStreamB]

theorem encStreamB_cons (op : Opc) (a : Obj) (rest : List Instr) (b : Nat)
    (ea er : List Nat) (hb : opByte op = some b) (hea : encArgB a = .ok ea)
    (her : encStreamB rest = .ok er) :
    encStreamB ((op, a) :: rest) = .ok (b :: (ea ++ er)) := by
  simp only [encStreamB, hb, hea, her]
  rfl

end PyPolicy

namespace PyPolicy

theorem ebind_err {α β : Type} (e : String) (f : α → Except String β) :
    ((Except.error e : Except String α) >>= f) = .error e := rfl

theorem rt_joint (k : Nat) :
    (∀ (a : Obj) (ea : List Nat), serializableArg a = true →
       encArgB a = .ok ea → ea.length ≤ k →
       ∀ (r : List Nat) (fuel : Nat), ea.length ≤ fuel →
         decArgF fuel (ea ++ r) = .ok (a, r))
    ∧ (∀ (c : List Instr) (ec : List Nat), wfCode c = true →
       encStreamB c = .ok ec → ec.length ≤ k →
       ∀ fuel : Nat, ec.length ≤ fuel → decStreamF fuel ec = .ok c) := by
  induction k using Nat.strong_induction_on with
  | _ k ih =>
    constructor
    · intro a ea hser henc hlen r fuel hfuel
      match a with
      | .iNilV =>
        rw [encArgB_nil] at henc
        injection henc with henc
        subst henc
        match fuel with
        | 0 => simp at hfuel
        | fuel + 1 => simp [decArgF]
      | .iIntegerV (.pInt n) =>
        rw [encArgB_int] at henc
        injection henc with henc
        subst henc
        match fuel with
        | 0 => simp at hfuel
        | fuel + 1 =>
          simp [decArgF, encInt, readUvar_uvar, unzag_zigzag]
      | .iIntegerV .pNone | .iIntegerV (.pBool _) | .iIntegerV (.pStr _)
      | .iIntegerV (.pFlt _) | .iIntegerV (.pObjList _) | .iIntegerV (.pDictO _)
      | .iIntegerV (.pCode _) | .iIntegerV (.pIter _) | .iIntegerV (.pHostFun _)
      | .iIntegerV (.pPair _ _) | .iIntegerV (.pObj _) =>
        simp [serializableArg] at hser
      | .iBoolV b =>
        rw [encArgB_bool] at henc
        injection henc with henc
        subst henc
        match fuel with
        | 0 => simp at hfuel
        | fuel + 1 =>
          cases b <;> simp [decArgF]
      | .iStringV str2 =>
        rw [encArgB_str] at henc
        injection henc with henc
        subst henc
        match fuel with
        | 0 => simp at hfuel
        | fuel + 1 =>
          simp [decArgF, decStr_encStr]
      | .iFunctionV code np ps =>
        simp only [serializableArg, Bool.and_eq_true, beq_iff_eq] at hser
        obtain ⟨hnp, hwfc⟩ := hser
        have hnpn : ¬ np < 0 := by omega
        cases hec : encStreamB code with
        | error e =>
          rw [encArgB, if_neg hnpn, hec, ebind_err] at henc
          exact Except.noConfusion henc
        | ok ec =>
          rw [encArgB_fn code np ps hnpn ec hec] at henc
          injection henc with henc
          subst henc
          match fuel with
          | 0 => simp at hfuel
          | fuel + 1 =>
            have h1 := uvar_length_pos np.toNat
            have h2 := uvar_length_pos ec.length
            have htn : np.toNat = ps.length := by omega
            have hlec : ec.length ≤ k - 1 := by
              simp only [List.length_cons, List.length_append] at hlen
              omega
            have hkpos : 0 < k := by
              simp only [List.length_cons, List.length_append] at hlen
              omega
            have hfec : ec.length ≤ fuel := by
              simp only [List.length_cons, List.length_append] at hfuel
              omega
            have hdec := (ih (k - 1) (by omega)).2 code ec hwfc hec hlec fuel hfec
            have hblen : ¬ ((ec ++ r).length < ec.length) := by simp
            simp only [List.cons_append, List.append_assoc, decArgF]
            norm_num
            rw [readUvar_uvar, htn]
            simp only [decNames_encNames, readUvar_uvar, if_neg hblen,
              List.take_left, List.drop_left, hdec, ebind_ok]
            rw [← hnp]
      | .iListV _ | .iDictV _ | .iPyfunctionV _ _ | .iPyObjectV _
      | .iBoundMethodV _ _ => simp [serializableArg] at hser
    · intro c ec hwf henc hlen fuel hfuel
      match c with
      | [] =>
        rw [encStreamB_nil] at henc
        injection henc with henc
        subst henc
        cases fuel <;> rfl
      | (op, a) :: rest =>
        simp only [wfCode, Bool.and_eq_true, Option.isSome_iff_exists] at hwf
        obtain ⟨⟨⟨b, hb⟩, hser⟩, hwfr⟩ := hwf
        cases hea : encArgB a with
        | error e =>
          simp [encStreamB, hb, hea, ebind_err] at henc
        | ok ea =>
          cases her : encStreamB rest with
          | error e =>
            simp [encStreamB, hb, hea, her, ebind_ok, ebind_err] at henc
          | ok er =>
            rw [encStreamB_cons op a rest b ea er hb hea her] at henc
            injection henc with henc
            subst henc
            match fuel with
            | 0 => simp at hfuel
            | fuel + 1 =>
              have hlea : ea.length ≤ k - 1 := by
                simp only [List.length_cons, List.length_append] at hlen
                omega
              have hkpos : 0 < k := by
                simp only [List.length_cons, List.length_append] at hlen
                omega
              have hfea : ea.length ≤ fuel := by
                simp only [List.length_cons, List.length_append] at hfuel
                omega
              have hler : er.length ≤ k - 1 := by
                simp only [List.length_cons, List.length_append] at hlen
                omega
              have hfer : er.length ≤ fuel := by
                simp only [List.length_cons, List.length_append] at hfuel
                omega
              have hdeca := (ih (k - 1) (by omega)).1 a ea hser hea hlea er fuel hfea
              have hdecs := (ih (k - 1) (by omega)).2 rest er hwfr her hler fuel hfer
              rw [decStreamF, byteToOp_opByte op b hb]
              simp [hdeca, hdecs, ebind_ok]

end PyPolicy

namespace PyPolicy



theorem toBytesBE_length (k n : Nat) : (toBytesBE k n).length = k := by
  induction k generalizing n with
  | zero => rfl
  | succ k ih => simp [toBytesBE, ih]

theorem fromBytesBE_append (xs : List Nat) (b : Nat) :
    fromBytesBE (xs ++ [b]) = fromBytesBE xs * 256 + b := by
  simp [fromBytesBE, List.foldl_append]

theorem fromBytes_toBytes (k n : Nat) (h : n < 256 ^ k) :
    fromBytesBE (toBytesBE k n) = n := by
  induction k generalizing n with
  | zero =>
    simp only [Nat.pow_zero, Nat.lt_one_iff] at h
    subst h
    rfl
  | succ k ih =>
    rw [toBytesBE, fromBytesBE_append, ih (n / 256) (by
      apply Nat.div_lt_of_lt_mul
      rw [Nat.pow_succ] at h
      omega)]
    omega

theorem take_pre {α : Type} (p s : List α) (n : Nat) (h : p.length = n) :
    (p ++ s).take n = p := by
  subst h
  exact List.take_left p s

theorem drop_pre {α : Type} (p s : List α) (n : Nat) (h : p.length = n) :
    (p ++ s).drop n = s := by
  subst h
  exact List.drop_left p s

theorem unpack_pack (codec : Codec) (body metaBytes : List Nat) (flags : Nat)
    (hcd : codec.decomp (codec.comp body) = .ok body)
    (hm : metaBytes.length < 4294967296)
    (hc : (codec.comp body).length < 4294967296)
    (hf : flags < 65536) :
    ∃ packed, pack codec body metaBytes flags = .ok packed ∧
      unpack codec packed = .ok (body, metaBytes) := by
  refine ⟨magicB ++ toBytesBE 2 1 ++ toBytesBE 2 flags ++
      toBytesBE 4 metaBytes.length ++ toBytesBE 4 (codec.comp body).length ++
      toBytesBE 4 (crc32 (codec.comp body) % 4294967296) ++ metaBytes ++
      codec.comp body, ?_, ?_⟩
  · simp only [pack]
    rw [if_neg (by omega), if_neg (by omega), if_neg (by omega)]
  · set C := codec.comp body with hC
    set M := metaBytes with hM
    set packed := magicB ++ toBytesBE 2 1 ++ toBytesBE 2 flags ++
      toBytesBE 4 M.length ++ toBytesBE 4 C.length ++
      toBytesBE 4 (crc32 C % 4294967296) ++ M ++ C with hpk
    have hmv : packed = magicB ++ (toBytesBE 2 1 ++ (toBytesBE 2 flags ++
        (toBytesBE 4 M.length ++ (toBytesBE 4 C.length ++
        (toBytesBE 4 (crc32 C % 4294967296) ++ (M ++ C)))))) := by
      simp [hpk, List.append_assoc]
    have hmag : packed.take 4 = magicB := by
      rw [hmv]; exact take_pre _ _ _ rfl
    have hd4 : packed.drop 4 = toBytesBE 2 1 ++ (toBytesBE 2 flags ++
        (toBytesBE 4 M.length ++ (toBytesBE 4 C.length ++
        (toBytesBE 4 (crc32 C % 4294967296) ++ (M ++ C))))) := by
      rw [hmv]; exact drop_pre _ _ _ rfl
    have hd6 : packed.drop 6 = toBytesBE 2 flags ++
        (toBytesBE 4 M.length ++ (toBytesBE 4 C.length ++
        (toBytesBE 4 (crc32 C % 4294967296) ++ (M ++ C)))) := by
      rw [show (6 : Nat) = 4 + 2 from rfl, ← List.drop_drop, hd4]
      exact drop_pre _ _ _ (toBytesBE_length 2 1)
    have hd8 : packed.drop 8 = toBytesBE 4 M.length ++ (toBytesBE 4 C.length ++
        (toBytesBE 4 (crc32 C % 4294967296) ++ (M ++ C))) := by
      rw [show (8 : Nat) = 6 + 2 from rfl, ← List.drop_drop, hd6]
      exact drop_pre _ _ _ (toBytesBE_length 2 flags)
    have hd12 : packed.drop 12 = toBytesBE 4 C.length ++
        (toBytesBE 4 (crc32 C % 4294967296) ++ (M ++ C)) := by
      rw [show (12 : Nat) = 8 + 4 from rfl, ← List.drop_drop, hd8]
      exact drop_pre _ _ _ (toBytesBE_length 4 M.length)
    have hd16 : packed.drop 16 = toBytesBE 4 (crc32 C % 4294967296) ++ (M ++ C) := by
      rw [show (16 : Nat) = 12 + 4 from rfl, ← List.drop_drop, hd12]
      exact drop_pre _ _ _ (toBytesBE_length 4 C.length)
    have hd20 : packed.drop 20 = M ++ C := by
      rw [show (20 : Nat) = 16 + 4 from rfl, ← List.drop_drop, hd16]
      exact drop_pre _ _ _ (toBytesBE_length 4 _)
    have hver : fromBytesBE ((packed.drop 4).take 2) = 1 := by
      rw [hd4, take_pre _ _ _ (toBytesBE_length 2 1)]
      exact fromBytes_toBytes 2 1 (by norm_num)
    have hml : fromBytesBE ((packed.drop 8).take 4) = M.length := by
      rw [hd8, take_pre _ _ _ (toBytesBE_length 4 _)]
      exact fromBytes_toBytes 4 _ (by norm_num; omega)
    have hbl : fromBytesBE ((packed.drop 12).take 4) = C.length := by
      rw [hd12, take_pre _ _ _ (toBytesBE_length 4 _)]
      exact fromBytes_toBytes 4 _ (by norm_num; omega)
    have hcrc : fromBytesBE ((packed.drop 16).take 4) = crc32 C % 4294967296 := by
      rw [hd16, take_pre _ _ _ (toBytesBE_length 4 _)]
      exact fromBytes_toBytes 4 _ (by norm_num; exact Nat.mod_lt _ (by norm_num))
    have hmeta : (packed.drop 20).take M.length = M := by
      rw [hd20]; exact take_pre _ _ _ rfl
    have hbody : packed.drop (20 + M.length) = C := by
      rw [← List.drop_drop, hd20]
      exact drop_pre _ _ _ rfl
    have hlen : packed.length = 20 + M.length + C.length := by
      simp [hpk, toBytesBE_length, magicB]
      omega
    simp only [unpack]
    rw [if_neg (by simp [hmag, hlen] <;> omega)]
    rw [hver, if_neg (by simp)]
    rw [hml, hbl]
    rw [if_neg (by simp [hlen] <;> omega)]
    rw [hbody, hcrc, List.take_length, hmeta]
    rw [if_neg (by simp)]
    rw [hcd, ebind_ok]

theorem lambdaParamNames_map (params : List String) :
    lambdaParamNames (params.map (fun p => some (.tok "NAME" p))) = params := by
  induction params with
  | nil => rfl
  | cons p ps ih => simp [lambdaParamNames, ih]

theorem genNode_number (fuel : Nat) (cg : CG) (s : String) :
    genNode (fuel + 1) cg (some (numTokNode s)) =
      match parseInt s with
      | some n => .ok (emit cg .PUSH (.iIntegerV (.pInt n))).2
      | none => .error "ValueError: invalid int literal" := rfl

theorem genNode_and_nums (fuel : Nat) (cg : CG) (sa sb : String) :
    genNode (fuel + 2) cg (some (andNode sa sb)) =
      (do
      let cg1 ← genNode (fuel + 1) cg (some (numTokNode sa))
      let (jF, cg2) := emitJump cg1 .JUMP_IF_FALSE
      let cg3 ← genNode (fuel + 1) cg2 (some (numTokNode sb))
      let (jE, cg4) := emitJump cg3 .JUMP
      let cg5 := patch cg4 jF cg4.code.length
      let cg6 := (emit cg5 .PUSH (.iBoolV false)).2
      .ok (patch cg6 jE cg6.code.length)) := rfl

theorem genNode_or_nums (fuel : Nat) (cg : CG) (sa sb : String) :
    genNode (fuel + 2) cg (some (orNode sa sb)) =
      (do
      let cg1 ← genNode (fuel + 1) cg (some (numTokNode sa))
      let (jT, cg2) := emitJump cg1 .JUMP_IF_TRUE
      let cg3 ← genNode (fuel + 1) cg2 (some (numTokNode sb))
      let (jE, cg4) := emitJump cg3 .JUMP
      let cg5 := patch cg4 jT cg4.code.length
      let cg6 := (emit cg5 .PUSH (.iBoolV true)).2
      .ok (patch cg6 jE cg6.code.length)) := rfl

theorem run_and_body (na nb : Int) :
    run hostNone 9 (andCode na nb) 0 emptyState =
      .ok (.iNilV, ⟨[if na = 0 then .iBoolV false else .iIntegerV (.pInt nb)],
        [], [], [], []⟩) := by
  have h1 : run hostNone 9 (andCode na nb) 0 emptyState =
      run hostNone 8 (andCode na nb) 1
        ⟨[.iIntegerV (.pInt na)], [], [], [], []⟩ := rfl
  have h2 : run hostNone 8 (andCode na nb) 1
        ⟨[.iIntegerV (.pInt na)], [], [], [], []⟩ =
      if !(na != 0) then run hostNone 7 (andCode na nb) (1 + 3) emptyState
      else run hostNone 7 (andCode na nb) (1 + 1) emptyState := rfl
  rw [h1, h2]
  cases hb : (na != 0) with
  | false =>
    have hna : na = 0 := by simpa using hb
    rw [if_pos hna]
    rfl
  | true =>
    have hna : ¬ na = 0 := by simpa using hb
    rw [if_neg hna]
    rfl

theorem run_or_body (na nb : Int) :
    run hostNone 9 (orCode na nb) 0 emptyState =
      .ok (.iNilV, ⟨[if na = 0 then .iIntegerV (.pInt nb) else .iBoolV true],
        [], [], [], []⟩) := by
  have h1 : run hostNone 9 (orCode na nb) 0 emptyState =
      run hostNone 8 (orCode na nb) 1
        ⟨[.iIntegerV (.pInt na)], [], [], [], []⟩ := rfl
  have h2 : run hostNone 8 (orCode na nb) 1
        ⟨[.iIntegerV (.pInt na)], [], [], [], []⟩ =
      if pyTruthy (value (.iIntegerV (.pInt na)))
      then run hostNone 7 (orCode na nb) (1 + 3) emptyState
      else run hostNone 7 (orCode na nb) (1 + 1) emptyState := rfl
  rw [h1, h2]
  cases hb : (na != 0) with
  | false =>
    have hna : na = 0 := by simpa using hb
    have hpt : pyTruthy (value (.iIntegerV (.pInt na))) = false := by
      simp [pyTruthy, value, hb]
    rw [hpt, if_pos hna]
    rfl
  | true =>
    have hna : ¬ na = 0 := by simpa using hb
    have hpt : pyTruthy (value (.iIntegerV (.pInt na))) = true := by
      simp [pyTruthy, value, hb]
    rw [hpt, if_neg hna]
    rfl

theorem genNode_var_top (fuel : Nat) (code : List Instr) (top : List String)
    (rest : List (List String)) (n : String) :
    genNode (fuel + 1) ⟨code, top :: rest⟩
        (some (.tree "var" [some (.tok "NAME" n)])) =
      if n ∈ top then .ok (emit ⟨code, top :: rest⟩ .PUSH_LOCAL (.iStringV n)).2
      else .ok (emit ⟨code, top :: rest⟩ .PUSH_GLOBAL (.iStringV n)).2 := rfl

theorem genNode_lambda_step (fuel : Nat) (cg : CG) (params : List String)
    (n : String) :
    genNode (fuel + 2) cg (some (lambdaFreeVar params n)) =
      (do
      let ps ← (.ok (lambdaParamNames (params.map (fun p => some (.tok "NAME" p)))) :
        Except String (List String))
      let inner ← (do
        let innerEnd ← genNode (fuel + 1) ⟨[], [ps]⟩
          (some (.tree "var" [some (.tok "NAME" n)]))
        (.ok (emit innerEnd .RETURN .iNilV).2 : Except String CG))
      .ok (emit cg .PUSH (.iFunctionV inner.code (ps.length : Int) ps)).2) := rfl

/-! ## The claims -/

/-- C1 (corrected).  The compiler lowers `a and b` (resp. `a or b`) with the
short-circuit shape the spec describes, but only the short-circuit branch
pushes a literal Bool; on the fall-through path the final stack value is the
raw right-operand value, so the result is not a Bool for non-Bool operands.
For number-literal operands: the emitted code is andCode/orCode, and running
it leaves the right operand's Integer value (not a Bool) whenever the left
operand decides against the short circuit. -/
theorem and_or_result_not_coerced (sa sb : String) (na nb : Int)
    (ha : parseInt sa = some na) (hb : parseInt sb = some nb) :
    ∃ cgA cgO : CG,
      genNode 3 ⟨[], []⟩ (some (andNode sa sb)) = .ok cgA ∧
      cgA.code = andCode na nb ∧
      run hostNone 9 cgA.code 0 emptyState =
        .ok (.iNilV, ⟨[if na = 0 then .iBoolV false else .iIntegerV (.pInt nb)],
          [], [], [], []⟩) ∧
      genNode 3 ⟨[], []⟩ (some (orNode sa sb)) = .ok cgO ∧
      cgO.code = orCode na nb ∧
      run hostNone 9 cgO.code 0 emptyState =
        .ok (.iNilV, ⟨[if na = 0 then .iIntegerV (.pInt nb) else .iBoolV true],
          [], [], [], []⟩) := by
  refine ⟨⟨andCode na nb, []⟩, ⟨orCode na nb, []⟩, ?_, rfl, run_and_body na nb,
    ?_, rfl, run_or_body na nb⟩
  · rw [show (3 : Nat) = 1 + 2 from rfl, genNode_and_nums]
    simp only [genNode_number, ha, hb]
    rfl
  · rw [show (3 : Nat) = 1 + 2 from rfl, genNode_or_nums]
    simp only [genNode_number, ha, hb]
    rfl

/-- Witness for C1: the literal program 1 and 2 / 1 or 2. -/
theorem and_or_result_not_coerced_witness :
    parseInt "1" = some 1 ∧ parseInt "2" = some 2 ∧
    (∃ cgA cgO : CG,
      genNode 3 ⟨[], []⟩ (some (andNode "1" "2")) = .ok cgA ∧
      cgA.code = andCode 1 2 ∧
      run hostNone 9 cgA.code 0 emptyState =
        .ok (.iNilV,
          ⟨[if (1 : Int) = 0 then .iBoolV false else .iIntegerV (.pInt 2)],
          [], [], [], []⟩) ∧
      genNode 3 ⟨[], []⟩ (some (orNode "1" "2")) = .ok cgO ∧
      cgO.code = orCode 1 2 ∧
      run hostNone 9 cgO.code 0 emptyState =
        .ok (.iNilV,
          ⟨[if (1 : Int) = 0 then .iIntegerV (.pInt 2) else .iBoolV true],
          [], [], [], []⟩)) :=
  ⟨by decide, by decide,
    and_or_result_not_coerced "1" "2" 1 2 (by decide) (by decide)⟩

set_option maxRecDepth 10000 in
/-- Counterexample to C1 as stated: 1 and 2 compiles and runs to a final
stack holding iInteger 2, which is not a Bool. -/
theorem and_one_two_pushes_integer :
    genNode 3 ⟨[], []⟩ (some andOneTwo) = .ok ⟨andOneTwoCode, []⟩ ∧
    run hostNone 9 andOneTwoCode 0 emptyState =
      .ok (.iNilV, ⟨[.iIntegerV (.pInt 2)], [], [], [], []⟩) ∧
    objIsBool (.iIntegerV (.pInt 2)) = false :=
  ⟨rfl, rfl, rfl⟩

/-- C2 (code bug).  BIN_ADD pops rhs then lhs and pushes
iInteger(rhs.value() + lhs.value()): for Integers the sum is correct only
because + commutes, but for Strings the operands are concatenated in
reversed order and the result is wrapped in iInteger, not iString. -/
theorem bin_add_swaps_and_wraps (lv rv : Int) (ls rs : String) (stk : List Obj)
    (g : List (String × Obj)) (fr : List (List (String × Obj)))
    (mt : List (String × List (String × Obj))) (out : List Obj) :
    run hostNone 1 [(.BIN_ADD, .iNilV)] 0
      ⟨.iIntegerV (.pInt rv) :: .iIntegerV (.pInt lv) :: stk, g, fr, mt, out⟩ =
      .ok (.iNilV, ⟨.iIntegerV (.pInt (rv + lv)) :: stk, g, fr, mt, out⟩) ∧
    run hostNone 1 [(.BIN_ADD, .iNilV)] 0
      ⟨.iStringV rs :: .iStringV ls :: stk, g, fr, mt, out⟩ =
      .ok (.iNilV, ⟨.iIntegerV (.pStr (rs ++ ls)) :: stk, g, fr, mt, out⟩) :=
  ⟨rfl, rfl⟩

/-- C3 (code bug).  INDEX on a Dict with a non-string key reaches
str(kval, iNil()), which raises an uncaught TypeError: execution terminates
instead of coercing the key or pushing Nil. -/
theorem index_nonstring_key_fatal (m : List (String × Obj)) (k : Obj)
    (hk : ∀ s, k ≠ .iStringV s)
    (stk : List Obj) (g : List (String × Obj)) (fr : List (List (String × Obj)))
    (mt : List (String × List (String × Obj))) (out : List Obj) :
    run hostNone 1 [(.INDEX, .iNilV)] 0 ⟨k :: .iDictV m :: stk, g, fr, mt, out⟩ =
      .error "TypeError: str() argument 2 must be str" := by
  cases k <;> first | exact absurd rfl (hk _) | rfl

/-- Witness for C3: an Integer key against a Dict. -/
theorem index_nonstring_key_fatal_witness :
    run hostNone 1 [(.INDEX, .iNilV)] 0
      ⟨[.iIntegerV (.pInt 1), .iDictV [("1", .iIntegerV (.pInt 7))]],
        [], [], [], []⟩ =
      .error "TypeError: str() argument 2 must be str" :=
  index_nonstring_key_fatal [("1", .iIntegerV (.pInt 7))]
    (.iIntegerV (.pInt 1)) (fun _ h => Obj.noConfusion h) [] [] [] [] []

/-- C4 (code bug).  CALL_FN with a callee that is none of Function,
NativeFunction, BoundMethod or iPyObject falls through the match silently:
the callee and arguments are consumed and execution continues with no
diagnostic. -/
theorem call_fn_noncallable_silent (v : Obj) (h : fallsThroughCallee v = true)
    (stk : List Obj) (g : List (String × Obj)) (fr : List (List (String × Obj)))
    (mt : List (String × List (String × Obj))) (out : List Obj) :
    run hostNone 1 [(.CALL_FN, .iIntegerV (.pInt 0))] 0
      ⟨v :: stk, g, fr, mt, out⟩ =
      .ok (.iNilV, ⟨stk, g, fr, mt, out⟩) := by
  cases v <;> simp [fallsThroughCallee] at h <;> rfl

/-- Witness for C4: calling the Integer 3 succeeds silently. -/
theorem call_fn_noncallable_silent_witness :
    run hostNone 1 [(.CALL_FN, .iIntegerV (.pInt 0))] 0
      ⟨[.iIntegerV (.pInt 3)], [], [], [], []⟩ =
      .ok (.iNilV, ⟨[], [], [], [], []⟩) :=
  call_fn_noncallable_silent (.iIntegerV (.pInt 3)) rfl [] [] [] [] []

set_option maxRecDepth 10000 in
/-- C5 (code bug).  The program for x in [1]: return 1 compiles so that
RETURN executes while the loop iterator is still on the operand stack:
the final stack is not empty. -/
theorem for_return_nonempty_stack :
    genNode 9 ⟨[], []⟩ (some forReturnProg) = .ok ⟨forReturnCode, []⟩ ∧
    run hostNone 20 forReturnCode 0 emptyState =
      .ok (.iIntegerV (.pInt 1),
        ⟨[.iPyObjectV (.pIter [])], [("x", .iIntegerV (.pInt 1))],
          [], [], []⟩) :=
  ⟨rfl, rfl⟩

/-- C6 (corrected).  The serializer round-trips exactly those instruction
lists whose opcodes are in the opcode table and whose arguments are Nil,
Integer, Bool, String, or Function values with the declared arity equal to
the number of parameter names (recursively): wfCode.  Without the arity side
condition the round trip can fail (see the counterexample). -/
theorem serde_roundtrip_wf (codec : Codec) (c : List Instr) (body : List Nat)
    (hwf : wfCode c = true)
    (henc : encStreamB c = .ok body)
    (hcd : codec.decomp (codec.comp body) = .ok body)
    (hc : (codec.comp body).length < 4294967296) :
    ∃ blob, serialize codec c = .ok blob ∧ deserialize codec blob = .ok c := by
  obtain ⟨packed, hpk, hup⟩ :=
    unpack_pack codec body emptyMeta 0 hcd (by norm_num [emptyMeta]) hc
      (by norm_num)
  refine ⟨packed, ?_, ?_⟩
  · simp only [serialize, henc, ebind_ok]
    exact hpk
  · simp only [deserialize, hup, ebind_ok]
    exact (rt_joint body.length).2 c body hwf henc (le_refl _) (body.length + 1)
      (by omega)

/-- Witness for C6: push 5; return round-trips through the container. -/
theorem serde_roundtrip_wf_witness :
    wfCode witCode = true ∧
    (∃ blob, serialize idCodec witCode = .ok blob ∧
      deserialize idCodec blob = .ok witCode) :=
  ⟨by decide,
    serde_roundtrip_wf idCodec witCode [32, 1, 10, 49, 0] (by decide)
      (by rw [witCode, encStreamB_cons .PUSH _ _ 32 [1, 10] [49, 0] rfl
            (by rw [encArgB_int]; simp [encInt, zigzag, uvar])
            (encStreamB_cons .RETURN _ _ 49 [0] [] rfl encArgB_nil
              encStreamB_nil)]
          rfl)
      rfl (by decide)⟩

set_option maxRecDepth 100000 in
/-- Counterexample to C6 as stated: a Function argument declaring arity 0
but carrying one parameter name serializes, but deserialization fails, so
the round trip does not hold for all opcode-table instruction lists. -/
theorem serde_arity_mismatch_fails :
    serialize idCodec arityMismatchFn = .ok amBlob ∧
    deserialize idCodec amBlob = .error "Unknown opcode byte" := by
  constructor
  · simp only [serialize]
    rw [show encStreamB arityMismatchFn = .ok [32, 4, 0, 1, 120, 0] from (by
      rw [arityMismatchFn, encStreamB_cons .PUSH _ _ 32 [4, 0, 1, 120, 0] [] rfl
        (by rw [encArgB_fn [] 0 ["x"] (by norm_num) [] encStreamB_nil]
            simp [encNames, encStr, uvar, utf8Encode, utf8Char])
        encStreamB_nil]
      rfl), ebind_ok]
    rfl
  · rfl

/-- C7 (code bug).  iPyfunction carries no variadic flag (its constructor
takes func and n_params only) and CALL_FN enforces arity equality
unconditionally: a NativeFunction of declared arity 0 called with 2
arguments always fails, with no variadic escape hatch. -/
theorem native_call_arity_mismatch (fid : Nat) (a b : Obj) (stk : List Obj)
    (g : List (String × Obj)) (fr : List (List (String × Obj)))
    (mt : List (String × List (String × Obj))) (out : List Obj) :
    run hostNone 1 [(.CALL_FN, .iIntegerV (.pInt 2))] 0
      ⟨b :: a :: .iPyfunctionV fid 0 :: stk, g, fr, mt, out⟩ =
      .error "RuntimeError: arity mismatch" := rfl

/-- C8 (corrected).  The decoder rejects any container whose version field
differs from 1, but the flags field is read and never validated: a container
built with any flags value (in particular non-zero, unknown flags) is
accepted unchanged. -/
theorem version_rejected_flags_ignored (codec : Codec) (v : Nat)
    (rest : List Nat) (body metaBytes : List Nat) (flags : Nat)
    (hv1 : v ≠ 1) (hv2 : v < 65536)
    (hcd : codec.decomp (codec.comp body) = .ok body)
    (hm : metaBytes.length < 4294967296)
    (hc : (codec.comp body).length < 4294967296)
    (hf : flags < 65536) :
    unpack codec (magicB ++ (toBytesBE 2 v ++ rest)) =
      .error "unsupported bytecode version" ∧
    ∃ packed, pack codec body metaBytes flags = .ok packed ∧
      unpack codec packed = .ok (body, metaBytes) := by
  constructor
  · have hmag : (magicB ++ (toBytesBE 2 v ++ rest)).take 4 = magicB :=
      take_pre _ _ _ rfl
    have hd4 : (magicB ++ (toBytesBE 2 v ++ rest)).drop 4 =
        toBytesBE 2 v ++ rest := drop_pre _ _ _ rfl
    have hver : fromBytesBE (((magicB ++ (toBytesBE 2 v ++ rest)).drop 4).take 2)
        = v := by
      rw [hd4, take_pre _ _ _ (toBytesBE_length 2 v)]
      exact fromBytes_toBytes 2 v (by norm_num; omega)
    have hlen : (magicB ++ (toBytesBE 2 v ++ rest)).length = 6 + rest.length := by
      simp [magicB, toBytesBE_length] <;> omega
    simp only [unpack]
    rw [if_neg (by simp [hmag, hlen] <;> omega)]
    rw [hver, if_pos hv1]
  · exact unpack_pack codec body metaBytes flags hcd hm hc hf

/-- Witness for C8: version 2 is rejected; a flags-1 container is accepted. -/
theorem version_rejected_flags_ignored_witness :
    unpack idCodec (magicB ++ (toBytesBE 2 2 ++ [])) =
      .error "unsupported bytecode version" ∧
    ∃ packed, pack idCodec [] emptyMeta 1 = .ok packed ∧
      unpack idCodec packed = .ok ([], emptyMeta) :=
  version_rejected_flags_ignored idCodec 2 [] [] emptyMeta 1 (by decide)
    (by decide) rfl (by decide) (by decide) (by decide)

set_option maxRecDepth 100000 in
/-- Counterexample to C8 as stated: the container packed with the unknown
flags value 1 is accepted by the decoder, not rejected. -/
theorem flags_one_accepted :
    pack idCodec [] emptyMeta 1 =
      .ok [80, 80, 66, 67, 0, 1, 0, 1, 0, 0, 0, 2, 0, 0, 0, 0, 0, 0, 0, 0,
        123, 125] ∧
    unpack idCodec [80, 80, 66, 67, 0, 1, 0, 1, 0, 0, 0, 2, 0, 0, 0, 0, 0, 0,
        0, 0, 123, 125] = .ok ([], emptyMeta) :=
  ⟨rfl, rfl⟩

/-- C9 (confirmed).  A lambda body is compiled in a fresh scope holding only
the declared parameters: a free name in the body compiles to PUSH_GLOBAL
whatever the enclosing scopes (in particular when the name is a local of the
enclosing function), so it is resolved against globals at call time. -/
theorem lambda_free_name_is_global (params : List String) (n : String)
    (sc : List (List String)) (code : List Instr) (hn : n ∉ params) :
    genNode 2 ⟨code, sc⟩ (some (lambdaFreeVar params n)) =
      .ok ⟨code ++ [(.PUSH, .iFunctionV
        [(.PUSH_GLOBAL, .iStringV n), (.RETURN, .iNilV)]
        (params.length : Int) params)], sc⟩ := by
  rw [show (2 : Nat) = 0 + 2 from rfl, genNode_lambda_step]
  simp only [ebind_ok, lambdaParamNames_map]
  rw [genNode_var_top, if_neg hn]
  simp only [ebind_ok]
  rfl

/-- Witness for C9: lambda x: y inside a function whose local is y. -/
theorem lambda_free_name_is_global_witness :
    genNode 2 ⟨[], [["y"]]⟩ (some (lambdaFreeVar ["x"] "y")) =
      .ok ⟨[(.PUSH, .iFunctionV
        [(.PUSH_GLOBAL, .iStringV "y"), (.RETURN, .iNilV)] (1 : Int) ["x"])],
        [["y"]]⟩ :=
  lambda_free_name_is_global ["x"] "y" [["y"]] [] (by decide)

/-- C10 (confirmed).  Interpreter.pop returns Nil on an empty stack rather
than raising: RETURN on an empty stack yields Nil, POP is a no-op that
continues execution, and STORE stores Nil; none of them underflows. -/
theorem pop_empty_yields_nil (g : List (String × Obj))
    (fr : List (List (String × Obj))) (mt : List (String × List (String × Obj)))
    (out : List Obj) :
    popO ⟨[], g, fr, mt, out⟩ = (.iNilV, ⟨[], g, fr, mt, out⟩) ∧
    run hostNone 1 [(.RETURN, .iNilV)] 0 ⟨[], g, fr, mt, out⟩ =
      .ok (.iNilV, ⟨[], g, fr, mt, out⟩) ∧
    run hostNone 2 [(.POP, .iNilV)] 0 ⟨[], g, fr, mt, out⟩ =
      .ok (.iNilV, ⟨[], g, fr, mt, out⟩) ∧
    run hostNone 2 [(.STORE, .iStringV "x")] 0 ⟨[], g, fr, mt, out⟩ =
      .ok (.iNilV, ⟨[], dictSet g "x" .iNilV, fr, mt, out⟩) :=
  ⟨rfl, rfl, rfl, rfl⟩

end PyPolicy
